import Mathlib

/-!
Verification of the `robot_interfaces` backend control loop
(`include/robot_interfaces/robot_backend.hpp`, `RobotBackend::loop`).

The loop is embedded shallowly as a fuel-bounded function producing a trace
of append events.  The four time series of `RobotData` (desired action,
applied action, observation, status) are recovered from the trace, so that
ordering properties ("once status[t] is appended ...") can be stated over
every prefix of the trace.  The driver, the client (frontend) and the two
shutdown sources (`request_shutdown` and the SIGINT flag) are modelled by an
environment that fixes, for each step, the observation returned, the driver
error string, the client appends that become visible at each suspension
point, the shutdown signals observed at each check of
`has_shutdown_request()`, and whether the first-action timeout has expired
at each iteration of the initial wait loop.
-/

namespace RobotInterfaces

/-- Modelled from the spec (status.hpp is not part of the sources at hand):
error kinds of a per-step `Status`. -/
inductive ErrorStatus where
  | NO_ERROR
  | BACKEND_ERROR
  | DRIVER_ERROR
deriving DecidableEq, Repr

/-- Modelled from the spec (status.hpp is not part of the sources at hand):
`Status = { error_status, error_message, action_repetitions }`, default
NO_ERROR / "" / 0. -/
structure Status where
  error_status : ErrorStatus
  error_message : String
  action_repetitions : Nat
deriving DecidableEq, Repr

/-- Default-constructed `Status` (`Status status;` in the loop body). -/
def Status.init : Status :=
  { error_status := ErrorStatus.NO_ERROR, error_message := "", action_repetitions := 0 }

/-- Modelled from the spec: `set_error` overwrites kind and message but not
the repetition counter. -/
def Status.set_error (s : Status) (kind : ErrorStatus) (msg : String) : Status :=
  { s with error_status := kind, error_message := msg }

/-- Observable events of one run of the backend: appends to the four time
series of `RobotData` (desired-action appends are split by author, client
vs backend repetition), calls of `driver.apply_action`, the post-loop
`driver.shutdown()` and the final `loop_is_running = false`. -/
inductive Event (A O : Type) where
  | appendObservation (o : O)
  | clientAppendDesired (a : A)
  | backendAppendDesired (a : A)
  | appendStatus (s : Status)
  | applyActionCall (a : A)
  | appendApplied (a : A)
  | driverShutdown
  | loopRunningFalse
deriving DecidableEq, Repr

/-- Contents of the observation time series after a trace. -/
def observationsOf {A O : Type} : List (Event A O) → List O
  | [] => []
  | Event.appendObservation o :: tr => o :: observationsOf tr
  | _ :: tr => observationsOf tr

/-- Contents of the desired-action time series after a trace (client and
backend appends together, in order). -/
def desiredOf {A O : Type} : List (Event A O) → List A
  | [] => []
  | Event.clientAppendDesired a :: tr => a :: desiredOf tr
  | Event.backendAppendDesired a :: tr => a :: desiredOf tr
  | _ :: tr => desiredOf tr

/-- Contents of the status time series after a trace. -/
def statusesOf {A O : Type} : List (Event A O) → List Status
  | [] => []
  | Event.appendStatus s :: tr => s :: statusesOf tr
  | _ :: tr => statusesOf tr

/-- Contents of the applied-action time series after a trace. -/
def appliedOf {A O : Type} : List (Event A O) → List A
  | [] => []
  | Event.appendApplied a :: tr => a :: appliedOf tr
  | _ :: tr => appliedOf tr

/-- Arguments of the `driver.apply_action` calls of a trace, in order. -/
def applyCallsOf {A O : Type} : List (Event A O) → List A
  | [] => []
  | Event.applyActionCall a :: tr => a :: applyCallsOf tr
  | _ :: tr => applyCallsOf tr

/-- Desired actions appended by the backend itself (repetitions of the
last action in real-time mode), in order. -/
def backendAppendsOf {A O : Type} : List (Event A O) → List A
  | [] => []
  | Event.backendAppendDesired a :: tr => a :: backendAppendsOf tr
  | _ :: tr => backendAppendsOf tr

/-- Environment of one run: backend configuration, driver behaviour, client
appends and shutdown signals at each suspension point.  The two shutdown
sources mirror `is_shutdown_requested_` writes by `request_shutdown()` and
`signal_handler::SignalHandler::has_received_sigint()`; both are read only
through `has_shutdown_request()`. -/
structure Env (A O : Type) where
  real_time_mode : Bool
  max_number_of_actions : Nat
  max_action_repetitions : Nat
  get_latest_observation : Nat → O
  get_error : Nat → String
  apply_action : A → A
  phaseAArrivals : Nat → List A
  phaseATimeout : Nat → Bool
  phaseAReq : Nat → Bool
  phaseASig : Nat → Bool
  reqAtTop : Nat → Bool
  sigAtTop : Nat → Bool
  midAppends : Nat → List A
  waitArrivals : Nat → List A
  reqAtWait : Nat → Bool
  sigAtWait : Nat → Bool

/-- How a run ended: `exited` is the normal path through the post-loop code
(`driver.shutdown(); loop_is_running_ = false;`); `blocked` means the loop
is suspended forever in `wait_for_timeindex(t, 0.1)` because the desired
action never arrives and no shutdown is requested; `fuelOut` is the model
artifact of bounded unfolding; `emptySeriesFailure` models the EMPTY_SERIES
failure of `newest_element()` on an empty time series. -/
inductive RunExit where
  | exited
  | blocked
  | fuelOut
  | emptySeriesFailure
deriving DecidableEq, Repr

/-- Result of a run: the event trace and how it ended. -/
structure RunResult (A O : Type) where
  trace : List (Event A O)
  exit : RunExit
deriving DecidableEq, Repr

/-- Outcome of one iteration of the `for` loop: either the loop goes on
with a new trace and shutdown flag, or the run halts. -/
inductive StepOutcome (A O : Type) where
  | cont (tr : List (Event A O)) (flag : Bool)
  | halt (r : RunResult A O)
deriving DecidableEq, Repr

/-- Trace accumulated by a step outcome. -/
def StepOutcome.outTrace {A O : Type} : StepOutcome A O → List (Event A O)
  | StepOutcome.cont tr _ => tr
  | StepOutcome.halt r => r.trace

/-- Status value at the top of iteration `t`: default-initialized, then
pre-set to BACKEND_ERROR when the action limit is reached
(`max_number_of_actions_ > 0 && t >= max_number_of_actions_`). -/
def presetStatus {A O : Type} (e : Env A O) (t : Nat) : Status :=
  if 0 < e.max_number_of_actions ∧ e.max_number_of_actions ≤ t then
    Status.init.set_error ErrorStatus.BACKEND_ERROR "Maximum number of actions reached."
  else Status.init

/-- Trace after `get_latest_observation` / `observation->append` of step `t`
and the client appends that become visible before the real-time admission
check. -/
def trAfterObs {A O : Type} (e : Env A O) (t : Nat) (tr : List (Event A O)) :
    List (Event A O) :=
  tr ++ [Event.appendObservation (e.get_latest_observation t)] ++
    (e.midAppends t).map Event.clientAppendDesired

/-- The real-time admission policy of step `t` (lines 289-308 of
robot_backend.hpp): when real-time mode is on and
`desired_action->newest_timeindex() < t`, either repeat the newest desired
action (incrementing the repetition counter read from
`status->newest_element()`) or set BACKEND_ERROR.  `none` models the
EMPTY_SERIES failure of `newest_element()` on an empty series. -/
def admission {A O : Type} (e : Env A O) (t : Nat) (tr : List (Event A O))
    (status : Status) : Option (List (Event A O) × Status) :=
  if e.real_time_mode = true ∧ ((desiredOf tr).length : Int) - 1 < (t : Int) then
    match (statusesOf tr).getLast? with
    | none => none
    | some sNewest =>
      if sNewest.action_repetitions < e.max_action_repetitions then
        match (desiredOf tr).getLast? with
        | none => none
        | some aNewest =>
          some (tr ++ [Event.backendAppendDesired aNewest],
                { status with action_repetitions := sNewest.action_repetitions + 1 })
      else
        some (tr, status.set_error ErrorStatus.BACKEND_ERROR
                    "Next action was not provided in time")
  else some (tr, status)

/-- The driver error poll of step `t` (lines 310-315): when
`driver.get_error()` is non-empty, set DRIVER_ERROR with that message,
overriding whatever was set before. -/
def driverPolled {A O : Type} (e : Env A O) (t : Nat) (st : Status) : Status :=
  if e.get_error t ≠ "" then st.set_error ErrorStatus.DRIVER_ERROR (e.get_error t)
  else st

/-- Rest of the loop body after the admission policy (lines 310-345):
driver error poll, status append, error break, wait for the desired action
of step `t` (interruptible by shutdown), apply it, append the applied
action. -/
def stepRest {A O : Type} (e : Env A O) (t : Nat) (tr : List (Event A O))
    (flag : Bool) (status : Status) : StepOutcome A O :=
  let status := driverPolled e t status
  let tr := tr ++ [Event.appendStatus status]
  if status.error_status ≠ ErrorStatus.NO_ERROR then
    StepOutcome.halt ⟨tr ++ [Event.driverShutdown, Event.loopRunningFalse], RunExit.exited⟩
  else
    let tr := tr ++ (e.waitArrivals t).map Event.clientAppendDesired
    let flag := flag || e.reqAtWait t || e.sigAtWait t
    if flag = true then
      StepOutcome.halt ⟨tr ++ [Event.driverShutdown, Event.loopRunningFalse], RunExit.exited⟩
    else
      match (desiredOf tr).get? t with
      | some a =>
        StepOutcome.cont
          (tr ++ [Event.applyActionCall a, Event.appendApplied (e.apply_action a)]) flag
      | none => StepOutcome.halt ⟨tr, RunExit.blocked⟩

/-- One iteration of the `for` loop of `RobotBackend::loop` (lines
259-351): shutdown check, action-limit pre-check, observation append,
real-time admission policy, then `stepRest`. -/
def stepBody {A O : Type} (e : Env A O) (t : Nat) (tr : List (Event A O))
    (flag : Bool) : StepOutcome A O :=
  let flag := flag || e.reqAtTop t || e.sigAtTop t
  if flag = true then
    StepOutcome.halt ⟨tr ++ [Event.driverShutdown, Event.loopRunningFalse], RunExit.exited⟩
  else
    match admission e t (trAfterObs e t tr) (presetStatus e t) with
    | none => StepOutcome.halt ⟨trAfterObs e t tr, RunExit.emptySeriesFailure⟩
    | some (tr, status) => stepRest e t tr flag status

/-- The `for` loop of `RobotBackend::loop`, fuel-bounded. -/
def loopFrom {A O : Type} (e : Env A O) : Nat → Nat → List (Event A O) → Bool → RunResult A O
  | 0, _, tr, _ => ⟨tr, RunExit.fuelOut⟩
  | fuel + 1, t, tr, flag =>
    match stepBody e t tr flag with
    | StepOutcome.halt r => r
    | StepOutcome.cont tr' flag' => loopFrom e fuel (t + 1) tr' flag'

/-- The initial wait for the first desired action (lines 239-257):
`while (!has_shutdown_request() && !wait_for_timeindex(0, 0.1))`, with a
timeout check in the body which appends a BACKEND_ERROR status and calls
`request_shutdown()`.  Returns the accumulated trace and shutdown flag, or
`none` when the fuel runs out. -/
def phaseA {A O : Type} (e : Env A O) : Nat → Nat → List (Event A O) → Bool →
    Option (List (Event A O) × Bool)
  | 0, _, _, _ => none
  | fuel + 1, k, tr, flag =>
    let flag := flag || e.phaseAReq k || e.phaseASig k
    if flag = true then some (tr, flag)
    else
      let tr := tr ++ (e.phaseAArrivals k).map Event.clientAppendDesired
      if 0 < (desiredOf tr).length then some (tr, flag)
      else if e.phaseATimeout k then
        some (tr ++ [Event.appendStatus (Status.init.set_error ErrorStatus.BACKEND_ERROR
                       "First action was not provided in time")], true)
      else phaseA e fuel (k + 1) tr flag

/-- A whole run of `RobotBackend::loop`: the initial wait for the first
action followed by the `for` loop; `driver.shutdown()` and
`loop_is_running_ = false` are emitted by the halt paths of `stepBody`. -/
def runBackend {A O : Type} (e : Env A O) (fuel : Nat) : RunResult A O :=
  match phaseA e fuel 0 [] false with
  | none => ⟨[], RunExit.fuelOut⟩
  | some (tr, flag) => loopFrom e fuel 0 tr flag

/-- Trace ordering: `TraceLe p tr` holds when `p` is an initial segment of
`tr`, i.e. the state of the series at some earlier point of the run. -/
def TraceLe {A O : Type} (p tr : List (Event A O)) : Prop :=
  ∃ q, p ++ q = tr

section ExtractorLemmas

variable {A O : Type}

@[simp] theorem observationsOf_append (tr1 tr2 : List (Event A O)) :
    observationsOf (tr1 ++ tr2) = observationsOf tr1 ++ observationsOf tr2 := by
  induction tr1 with
  | nil => rfl
  | cons ev tr ih => cases ev <;> simp [observationsOf, ih]

@[simp] theorem desiredOf_append (tr1 tr2 : List (Event A O)) :
    desiredOf (tr1 ++ tr2) = desiredOf tr1 ++ desiredOf tr2 := by
  induction tr1 with
  | nil => rfl
  | cons ev tr ih => cases ev <;> simp [desiredOf, ih]

@[simp] theorem statusesOf_append (tr1 tr2 : List (Event A O)) :
    statusesOf (tr1 ++ tr2) = statusesOf tr1 ++ statusesOf tr2 := by
  induction tr1 with
  | nil => rfl
  | cons ev tr ih => cases ev <;> simp [statusesOf, ih]

@[simp] theorem appliedOf_append (tr1 tr2 : List (Event A O)) :
    appliedOf (tr1 ++ tr2) = appliedOf tr1 ++ appliedOf tr2 := by
  induction tr1 with
  | nil => rfl
  | cons ev tr ih => cases ev <;> simp [appliedOf, ih]

@[simp] theorem applyCallsOf_append (tr1 tr2 : List (Event A O)) :
    applyCallsOf (tr1 ++ tr2) = applyCallsOf tr1 ++ applyCallsOf tr2 := by
  induction tr1 with
  | nil => rfl
  | cons ev tr ih => cases ev <;> simp [applyCallsOf, ih]

@[simp] theorem backendAppendsOf_append (tr1 tr2 : List (Event A O)) :
    backendAppendsOf (tr1 ++ tr2) = backendAppendsOf tr1 ++ backendAppendsOf tr2 := by
  induction tr1 with
  | nil => rfl
  | cons ev tr ih => cases ev <;> simp [backendAppendsOf, ih]

@[simp] theorem observationsOf_map_client (l : List A) :
    observationsOf ((l.map Event.clientAppendDesired : List (Event A O))) = [] := by
  induction l with
  | nil => rfl
  | cons a l ih => simp [observationsOf, ih]

@[simp] theorem desiredOf_map_client (l : List A) :
    desiredOf ((l.map Event.clientAppendDesired : List (Event A O))) = l := by
  induction l with
  | nil => rfl
  | cons a l ih => simp [desiredOf, ih]

@[simp] theorem statusesOf_map_client (l : List A) :
    statusesOf ((l.map Event.clientAppendDesired : List (Event A O))) = [] := by
  induction l with
  | nil => rfl
  | cons a l ih => simp [statusesOf, ih]

@[simp] theorem appliedOf_map_client (l : List A) :
    appliedOf ((l.map Event.clientAppendDesired : List (Event A O))) = [] := by
  induction l with
  | nil => rfl
  | cons a l ih => simp [appliedOf, ih]

@[simp] theorem applyCallsOf_map_client (l : List A) :
    applyCallsOf ((l.map Event.clientAppendDesired : List (Event A O))) = [] := by
  induction l with
  | nil => rfl
  | cons a l ih => simp [applyCallsOf, ih]

@[simp] theorem backendAppendsOf_map_client (l : List A) :
    backendAppendsOf ((l.map Event.clientAppendDesired : List (Event A O))) = [] := by
  induction l with
  | nil => rfl
  | cons a l ih => simp [backendAppendsOf, ih]

end ExtractorLemmas

section TraceLeLemmas

variable {A O : Type}

theorem TraceLe.refl (tr : List (Event A O)) : TraceLe tr tr := ⟨[], List.append_nil tr⟩

theorem TraceLe.of_append (p q : List (Event A O)) : TraceLe p (p ++ q) := ⟨q, rfl⟩

theorem traceLe_append_iff {p tr l : List (Event A O)} :
    TraceLe p (tr ++ l) ↔ TraceLe p tr ∨ ∃ l', TraceLe l' l ∧ p = tr ++ l' := by
  constructor
  · rintro ⟨q, hq⟩
    rcases List.append_eq_append_iff.mp hq with ⟨a', ha1, _⟩ | ⟨c', hc1, hc2⟩
    · exact Or.inl ⟨a', ha1.symm⟩
    · exact Or.inr ⟨c', ⟨q, hc2.symm⟩, hc1⟩
  · rintro (⟨q, hq⟩ | ⟨l', ⟨q, hq⟩, rfl⟩)
    · exact ⟨q ++ l, by rw [← List.append_assoc, hq]⟩
    · exact ⟨q, by rw [List.append_assoc, hq]⟩

end TraceLeLemmas

/-- Step-completeness / ordering property of a series state: the applied
series never runs ahead of the observation, status, or desired series, and
the status series runs ahead of the observation series by at most one
element (the first-action-timeout status, which is appended before any
observation). -/
def good {A O : Type} (tr : List (Event A O)) : Prop :=
  (appliedOf tr).length ≤ (observationsOf tr).length ∧
  (appliedOf tr).length ≤ (statusesOf tr).length ∧
  (appliedOf tr).length ≤ (desiredOf tr).length ∧
  (statusesOf tr).length ≤ (observationsOf tr).length + 1

/-- `good` holds at every earlier point of the trace. -/
def goodPref {A O : Type} (tr : List (Event A O)) : Prop :=
  ∀ p, TraceLe p tr → good p

section GoodLemmas

variable {A O : Type}

theorem goodPref_append {tr l : List (Event A O)} (h : goodPref tr)
    (hl : ∀ l', TraceLe l' l → good (tr ++ l')) : goodPref (tr ++ l) := by
  intro p hp
  rcases traceLe_append_iff.mp hp with hp | ⟨l', hl', rfl⟩
  · exact h p hp
  · exact hl l' hl'

theorem traceLe_map_client {l' : List (Event A O)} {l : List A}
    (h : TraceLe l' (l.map Event.clientAppendDesired)) :
    ∃ l0 : List A, l' = l0.map Event.clientAppendDesired := by
  rcases h with ⟨q, hq⟩
  rcases List.map_eq_append_iff.mp hq.symm with ⟨l1, l2, _, h1, _⟩
  exact ⟨l1, h1.symm⟩

theorem goodPref_clients {tr : List (Event A O)} (h : goodPref tr) (l : List A) :
    goodPref (tr ++ l.map Event.clientAppendDesired) := by
  refine goodPref_append h ?_
  intro l' hl'
  rcases traceLe_map_client hl' with ⟨l0, rfl⟩
  have hg := h tr (TraceLe.refl tr)
  simp only [good, observationsOf_append, desiredOf_append, statusesOf_append,
    appliedOf_append, observationsOf_map_client, desiredOf_map_client,
    statusesOf_map_client, appliedOf_map_client, List.append_nil, List.length_append] at hg ⊢
  omega

theorem goodPref_snoc {tr : List (Event A O)} {ev : Event A O} (h : goodPref tr)
    (hg : good (tr ++ [ev])) : goodPref (tr ++ [ev]) := by
  refine goodPref_append h ?_
  intro l' hl'
  rcases hl' with ⟨q, hq⟩
  rcases l' with _ | ⟨e0, l'⟩
  · simpa using h tr (TraceLe.refl tr)
  · simp only [List.cons_append] at hq
    injection hq with h1 h2
    subst h1
    have hl0 : l' = [] := by
      cases l' <;> simp_all
    subst hl0
    simpa using hg

theorem goodPref_shutdownEvents {tr : List (Event A O)} (h : goodPref tr) :
    goodPref (tr ++ [Event.driverShutdown, Event.loopRunningFalse]) := by
  have h1 : goodPref (tr ++ [Event.driverShutdown]) := by
    refine goodPref_snoc h ?_
    have hg := h tr (TraceLe.refl tr)
    simp only [good, observationsOf_append, desiredOf_append, statusesOf_append,
      appliedOf_append] at hg ⊢
    simpa [observationsOf, desiredOf, statusesOf, appliedOf] using hg
  have h2 := @goodPref_snoc A O (tr ++ [Event.driverShutdown]) Event.loopRunningFalse h1 ?_
  · simpa [List.append_assoc] using h2
  · have hg := h1 _ (TraceLe.refl _)
    simp only [good, observationsOf_append, desiredOf_append, statusesOf_append,
      appliedOf_append] at hg ⊢
    simpa [observationsOf, desiredOf, statusesOf, appliedOf] using hg

end GoodLemmas

section StepLemmas

variable {A O : Type}

theorem stepBody_eq_top {e : Env A O} {t : Nat} {tr : List (Event A O)} {flag : Bool}
    (h : (flag || e.reqAtTop t || e.sigAtTop t) = true) :
    stepBody e t tr flag =
      StepOutcome.halt ⟨tr ++ [Event.driverShutdown, Event.loopRunningFalse], RunExit.exited⟩ := by
  simp [stepBody, h]

theorem stepBody_eq_go {e : Env A O} {t : Nat} {tr tr3 : List (Event A O)} {flag : Bool}
    {st2 : Status}
    (h : (flag || e.reqAtTop t || e.sigAtTop t) = false)
    (hadm : admission e t (trAfterObs e t tr) (presetStatus e t) = some (tr3, st2)) :
    stepBody e t tr flag = stepRest e t tr3 false st2 := by
  simp [stepBody, h, hadm]

theorem stepBody_eq_fail {e : Env A O} {t : Nat} {tr : List (Event A O)} {flag : Bool}
    (h : (flag || e.reqAtTop t || e.sigAtTop t) = false)
    (hadm : admission e t (trAfterObs e t tr) (presetStatus e t) = none) :
    stepBody e t tr flag =
      StepOutcome.halt ⟨trAfterObs e t tr, RunExit.emptySeriesFailure⟩ := by
  simp [stepBody, h, hadm]

theorem stepRest_eq_error {e : Env A O} {t : Nat} {tr : List (Event A O)} {flag : Bool}
    {st : Status} (h : (driverPolled e t st).error_status ≠ ErrorStatus.NO_ERROR) :
    stepRest e t tr flag st =
      StepOutcome.halt ⟨tr ++ [Event.appendStatus (driverPolled e t st),
        Event.driverShutdown, Event.loopRunningFalse], RunExit.exited⟩ := by
  simp only [stepRest, if_pos h]
  simp

theorem stepRest_eq_waitShutdown {e : Env A O} {t : Nat} {tr : List (Event A O)} {flag : Bool}
    {st : Status} (h : (driverPolled e t st).error_status = ErrorStatus.NO_ERROR)
    (hw : (flag || e.reqAtWait t || e.sigAtWait t) = true) :
    stepRest e t tr flag st =
      StepOutcome.halt ⟨tr ++ [Event.appendStatus (driverPolled e t st)] ++
        (e.waitArrivals t).map Event.clientAppendDesired ++
        [Event.driverShutdown, Event.loopRunningFalse], RunExit.exited⟩ := by
  simp [stepRest, h, hw]

theorem stepRest_eq_cont {e : Env A O} {t : Nat} {tr : List (Event A O)} {flag : Bool}
    {st : Status} {a : A} (h : (driverPolled e t st).error_status = ErrorStatus.NO_ERROR)
    (hw : (flag || e.reqAtWait t || e.sigAtWait t) = false)
    (hget : (desiredOf (tr ++ [Event.appendStatus (driverPolled e t st)] ++
      (e.waitArrivals t).map Event.clientAppendDesired)).get? t = some a) :
    stepRest e t tr flag st =
      StepOutcome.cont (tr ++ [Event.appendStatus (driverPolled e t st)] ++
        (e.waitArrivals t).map Event.clientAppendDesired ++
        [Event.applyActionCall a, Event.appendApplied (e.apply_action a)]) false := by
  simp only [stepRest, h]
  simp only [ne_eq, not_true_eq_false, if_false, List.append_assoc] at *
  simp only [hw, if_false]
  rw [show (tr ++ ([Event.appendStatus (driverPolled e t st)] ++
      (e.waitArrivals t).map Event.clientAppendDesired)) =
    tr ++ [Event.appendStatus (driverPolled e t st)] ++
      (e.waitArrivals t).map Event.clientAppendDesired by simp] at *
  rw [hget]
  simp

theorem stepRest_eq_blocked {e : Env A O} {t : Nat} {tr : List (Event A O)} {flag : Bool}
    {st : Status} (h : (driverPolled e t st).error_status = ErrorStatus.NO_ERROR)
    (hw : (flag || e.reqAtWait t || e.sigAtWait t) = false)
    (hget : (desiredOf (tr ++ [Event.appendStatus (driverPolled e t st)] ++
      (e.waitArrivals t).map Event.clientAppendDesired)).get? t = none) :
    stepRest e t tr flag st =
      StepOutcome.halt ⟨tr ++ [Event.appendStatus (driverPolled e t st)] ++
        (e.waitArrivals t).map Event.clientAppendDesired, RunExit.blocked⟩ := by
  simp only [stepRest, h]
  simp only [ne_eq, not_true_eq_false, if_false, List.append_assoc] at *
  simp only [hw, if_false]
  rw [show (tr ++ ([Event.appendStatus (driverPolled e t st)] ++
      (e.waitArrivals t).map Event.clientAppendDesired)) =
    tr ++ [Event.appendStatus (driverPolled e t st)] ++
      (e.waitArrivals t).map Event.clientAppendDesired by simp] at *
  rw [hget]
  simp

end StepLemmas

section AdmissionLemmas

variable {A O : Type}

theorem admission_eq_skip {e : Env A O} {t : Nat} {tr : List (Event A O)} {st : Status}
    (h : ¬(e.real_time_mode = true ∧ ((desiredOf tr).length : Int) - 1 < (t : Int))) :
    admission e t tr st = some (tr, st) := by
  simp [admission, h]

theorem admission_eq_repeat {e : Env A O} {t : Nat} {tr : List (Event A O)} {st : Status}
    {sN : Status} {aN : A}
    (hg : e.real_time_mode = true ∧ ((desiredOf tr).length : Int) - 1 < (t : Int))
    (hs : (statusesOf tr).getLast? = some sN)
    (hlt : sN.action_repetitions < e.max_action_repetitions)
    (hd : (desiredOf tr).getLast? = some aN) :
    admission e t tr st = some (tr ++ [Event.backendAppendDesired aN],
      { st with action_repetitions := sN.action_repetitions + 1 }) := by
  simp [admission, hg, hs, hlt, hd]

theorem admission_eq_exhausted {e : Env A O} {t : Nat} {tr : List (Event A O)} {st : Status}
    {sN : Status}
    (hg : e.real_time_mode = true ∧ ((desiredOf tr).length : Int) - 1 < (t : Int))
    (hs : (statusesOf tr).getLast? = some sN)
    (hge : ¬sN.action_repetitions < e.max_action_repetitions) :
    admission e t tr st =
      some (tr, st.set_error ErrorStatus.BACKEND_ERROR "Next action was not provided in time") := by
  simp [admission, hg, hs, hge]

/-- On a series state with a non-empty desired series and a status series
that is non-empty whenever the admission branch is entered, the admission
policy never fails with EMPTY_SERIES, appends at most one (backend) desired
action, and either keeps the error fields of the incoming status or sets
the late-action BACKEND_ERROR. -/
theorem admission_spec (e : Env A O) (t : Nat) (tr : List (Event A O)) (st : Status)
    (hdes : 1 ≤ (desiredOf tr).length)
    (hsts : e.real_time_mode = true → ((desiredOf tr).length : Int) - 1 < (t : Int) →
      1 ≤ (statusesOf tr).length) :
    ∃ tr' st', admission e t tr st = some (tr', st') ∧
      (tr' = tr ∨ ∃ a, tr' = tr ++ [Event.backendAppendDesired a]) ∧
      ((st'.error_status = st.error_status ∧ st'.error_message = st.error_message) ∨
       (st'.error_status = ErrorStatus.BACKEND_ERROR ∧
        st'.error_message = "Next action was not provided in time")) := by
  by_cases hg : e.real_time_mode = true ∧ ((desiredOf tr).length : Int) - 1 < (t : Int)
  · have hs1 : statusesOf tr ≠ [] := by
      have := hsts hg.1 hg.2
      intro hnil
      rw [hnil] at this
      simp at this
    have hd1 : desiredOf tr ≠ [] := by
      intro hnil
      rw [hnil] at hdes
      simp at hdes
    obtain ⟨sN, hsN⟩ := Option.isSome_iff_exists.mp (List.getLast?_isSome.mpr hs1)
    obtain ⟨aN, haN⟩ := Option.isSome_iff_exists.mp (List.getLast?_isSome.mpr hd1)
    by_cases hlt : sN.action_repetitions < e.max_action_repetitions
    · exact ⟨_, _, admission_eq_repeat hg hsN hlt haN, Or.inr ⟨aN, rfl⟩, Or.inl ⟨rfl, rfl⟩⟩
    · exact ⟨_, _, admission_eq_exhausted hg hsN hlt, Or.inl rfl, Or.inr ⟨rfl, rfl⟩⟩
  · exact ⟨_, _, admission_eq_skip hg, Or.inl rfl, Or.inl ⟨rfl, rfl⟩⟩

end AdmissionLemmas

/-- Invariant holding at the top of the `for` loop at step `t`: all four
series have exactly the lengths the completed steps `0 .. t-1` gave them
(status may also hold the single first-action-timeout error status, in
which case the shutdown flag is set), the desired series is non-empty and
reaches at least index `t - 1`, every earlier point of the trace satisfies
`good`, and the post-loop events have not been emitted yet. -/
structure Inv {A O : Type} (e : Env A O) (t : Nat) (tr : List (Event A O)) (flag : Bool) :
    Prop where
  hobs : (observationsOf tr).length = t
  happ : (appliedOf tr).length = t
  hapc : (applyCallsOf tr).length = t
  hsts : (statusesOf tr).length = t ∨ ((statusesOf tr).length = 1 ∧ t = 0 ∧ flag = true)
  hdes : flag = true ∨ (1 ≤ (desiredOf tr).length ∧ t ≤ (desiredOf tr).length)
  hpref : goodPref tr
  hshut : (Event.driverShutdown : Event A O) ∉ tr ∧ (Event.loopRunningFalse : Event A O) ∉ tr

section StepSpec

variable {A O : Type}

theorem trAfterObs_facts (e : Env A O) (t : Nat) (tr : List (Event A O)) :
    observationsOf (trAfterObs e t tr) = observationsOf tr ++ [e.get_latest_observation t] ∧
    appliedOf (trAfterObs e t tr) = appliedOf tr ∧
    applyCallsOf (trAfterObs e t tr) = applyCallsOf tr ∧
    statusesOf (trAfterObs e t tr) = statusesOf tr ∧
    desiredOf (trAfterObs e t tr) = desiredOf tr ++ e.midAppends t ∧
    backendAppendsOf (trAfterObs e t tr) = backendAppendsOf tr := by
  refine ⟨?_, ?_, ?_, ?_, ?_, ?_⟩ <;>
    simp [trAfterObs, observationsOf, appliedOf, applyCallsOf, statusesOf, desiredOf,
      backendAppendsOf]

theorem goodPref_trAfterObs (e : Env A O) (t : Nat) (tr : List (Event A O))
    (h : goodPref tr) : goodPref (trAfterObs e t tr) := by
  have h1 : goodPref (tr ++ [Event.appendObservation (e.get_latest_observation t)]) := by
    refine goodPref_snoc h ?_
    have hg := h tr (TraceLe.refl tr)
    simp only [good] at hg ⊢
    simp only [observationsOf_append, appliedOf_append, statusesOf_append, desiredOf_append,
      List.length_append]
    simp [observationsOf, appliedOf, statusesOf, desiredOf]
    omega
  simpa [trAfterObs] using goodPref_clients h1 (e.midAppends t)

theorem Inv_cont_aux (e : Env A O) (t : Nat) (tr3 : List (Event A O)) (st3 : Status) (a : A)
    (h3obs : (observationsOf tr3).length = t + 1) (h3app : (appliedOf tr3).length = t)
    (h3apc : (applyCallsOf tr3).length = t) (h3sts : (statusesOf tr3).length = t)
    (hpref5 : goodPref (tr3 ++ [Event.appendStatus st3] ++
      (e.waitArrivals t).map Event.clientAppendDesired))
    (hshA : (Event.driverShutdown : Event A O) ∉ tr3)
    (hshB : (Event.loopRunningFalse : Event A O) ∉ tr3)
    (hlt : t < (desiredOf tr3).length + (e.waitArrivals t).length) :
    Inv e (t + 1) (tr3 ++ [Event.appendStatus st3] ++
      (e.waitArrivals t).map Event.clientAppendDesired ++
      [Event.applyActionCall a, Event.appendApplied (e.apply_action a)]) false := by
  have hgood5 := hpref5 _ (TraceLe.refl (tr3 ++ [Event.appendStatus st3] ++
    (e.waitArrivals t).map Event.clientAppendDesired))
  have hg6 : good (tr3 ++ [Event.appendStatus st3] ++
      (e.waitArrivals t).map Event.clientAppendDesired ++ [Event.applyActionCall a]) := by
    simp only [good] at hgood5 ⊢
    simpa [observationsOf, appliedOf, statusesOf, desiredOf] using hgood5
  have hp6 := goodPref_snoc hpref5 hg6
  have hg7 : good (tr3 ++ [Event.appendStatus st3] ++
      (e.waitArrivals t).map Event.clientAppendDesired ++ [Event.applyActionCall a] ++
      [Event.appendApplied (e.apply_action a)]) := by
    simp only [good]
    refine ⟨?_, ?_, ?_, ?_⟩ <;>
      simp [observationsOf, appliedOf, statusesOf, desiredOf, h3obs, h3app, h3sts] <;> omega
  have hp7 := goodPref_snoc hp6 hg7
  have heq : tr3 ++ [Event.appendStatus st3] ++
      (e.waitArrivals t).map Event.clientAppendDesired ++ [Event.applyActionCall a] ++
      [Event.appendApplied (e.apply_action a)] =
      tr3 ++ [Event.appendStatus st3] ++
      (e.waitArrivals t).map Event.clientAppendDesired ++
      [Event.applyActionCall a, Event.appendApplied (e.apply_action a)] := by simp
  rw [heq] at hp7
  refine ⟨?_, ?_, ?_, Or.inl ?_, Or.inr ⟨?_, ?_⟩, hp7, ?_⟩
  · simp [observationsOf, h3obs]
  · simp [appliedOf, h3app]
  · simp [applyCallsOf, h3apc]
  · simp [statusesOf, h3sts]
  · simp [desiredOf] <;> omega
  · simp [desiredOf] <;> omega
  · constructor <;> simp [hshA, hshB]

/-- One loop iteration started from a reachable state either continues with
the invariant re-established at `t + 1`, or halts without the EMPTY_SERIES
failure, with `good` at every point of the final trace, and with
`driver.shutdown()` followed by `loop_is_running = false` emitted exactly
once at the very end iff the exit is the normal one. -/
theorem stepBody_spec (e : Env A O) (t : Nat) (tr : List (Event A O)) (flag : Bool)
    (inv : Inv e t tr flag) :
    (∀ tr' flag', stepBody e t tr flag = StepOutcome.cont tr' flag' →
      Inv e (t + 1) tr' flag') ∧
    (∀ r, stepBody e t tr flag = StepOutcome.halt r →
      r.exit ≠ RunExit.emptySeriesFailure ∧ goodPref r.trace ∧
      (r.exit = RunExit.exited →
        ∃ p, r.trace = p ++ [Event.driverShutdown, Event.loopRunningFalse] ∧
          (Event.driverShutdown : Event A O) ∉ p ∧ (Event.loopRunningFalse : Event A O) ∉ p) ∧
      (r.exit ≠ RunExit.exited →
        (Event.driverShutdown : Event A O) ∉ r.trace ∧
        (Event.loopRunningFalse : Event A O) ∉ r.trace)) := by
  by_cases htop : (flag || e.reqAtTop t || e.sigAtTop t) = true
  · rw [stepBody_eq_top htop]
    refine ⟨fun tr' flag' h => by simp at h, fun r h => ?_⟩
    injection h with h
    subst h
    refine ⟨by simp, goodPref_shutdownEvents inv.hpref, ?_, ?_⟩
    · exact fun _ => ⟨tr, rfl, inv.hshut.1, inv.hshut.2⟩
    · exact fun h => absurd rfl h
  · have htop' : (flag || e.reqAtTop t || e.sigAtTop t) = false := by simpa using htop
    have hflag : flag = false := by
      rcases Bool.or_eq_false_iff.mp htop' with ⟨h1, _⟩
      exact (Bool.or_eq_false_iff.mp h1).1
    have hstsLen : (statusesOf tr).length = t := by
      rcases inv.hsts with h | ⟨_, _, hfl⟩
      · exact h
      · rw [hflag] at hfl; cases hfl
    have hdesLen : 1 ≤ (desiredOf tr).length ∧ t ≤ (desiredOf tr).length := by
      rcases inv.hdes with hfl | h
      · rw [hflag] at hfl; cases hfl
      · exact h
    obtain ⟨hO2, hA2, hC2, hS2, hD2, hB2⟩ := trAfterObs_facts e t tr
    have hpref2 : goodPref (trAfterObs e t tr) := goodPref_trAfterObs e t tr inv.hpref
    have hshut2 : (Event.driverShutdown : Event A O) ∉ trAfterObs e t tr ∧
        (Event.loopRunningFalse : Event A O) ∉ trAfterObs e t tr := by
      constructor <;> simp [trAfterObs, inv.hshut.1, inv.hshut.2]
    obtain ⟨tr3, st2, hadm, htr3, hst2⟩ :=
      admission_spec e t (trAfterObs e t tr) (presetStatus e t)
        (by rw [hD2]; simp only [List.length_append]; omega)
        (by
          intro hrt hlt
          rw [hS2, hstsLen]
          rw [hD2] at hlt
          simp only [List.length_append] at hlt
          omega)
    have h3 : (observationsOf tr3).length = t + 1 ∧ (appliedOf tr3).length = t ∧
        (applyCallsOf tr3).length = t ∧ (statusesOf tr3).length = t ∧
        1 ≤ (desiredOf tr3).length ∧ t ≤ (desiredOf tr3).length ∧
        goodPref tr3 ∧ (Event.driverShutdown : Event A O) ∉ tr3 ∧
        (Event.loopRunningFalse : Event A O) ∉ tr3 := by
      rcases htr3 with rfl | ⟨aN, rfl⟩
      · refine ⟨?_, ?_, ?_, ?_, ?_, ?_, hpref2, hshut2.1, hshut2.2⟩ <;>
          simp only [hO2, hA2, hC2, hS2, hD2, List.length_append, List.length_cons,
            List.length_nil, inv.hobs, inv.happ, inv.hapc, hstsLen] <;> omega
      · have hgood : good (trAfterObs e t tr ++ [Event.backendAppendDesired aN]) := by
          have hg := hpref2 _ (TraceLe.refl (trAfterObs e t tr))
          simp only [good, observationsOf_append, appliedOf_append, statusesOf_append,
            desiredOf_append, List.length_append] at hg ⊢
          simp only [observationsOf, appliedOf, statusesOf, desiredOf, List.length_cons,
            List.length_nil]
          omega
        refine ⟨?_, ?_, ?_, ?_, ?_, ?_, goodPref_snoc hpref2 hgood, ?_, ?_⟩
        · simp [hO2, inv.hobs, observationsOf]
        · simp [hA2, inv.happ, appliedOf]
        · simp [hC2, inv.hapc, applyCallsOf]
        · simp [hS2, hstsLen, statusesOf]
        · simp only [desiredOf_append, hD2, List.length_append]
          simp [desiredOf] <;> omega
        · simp only [desiredOf_append, hD2, List.length_append]
          simp [desiredOf] <;> omega
        · simp [hshut2.1]
        · simp [hshut2.2]
    obtain ⟨h3obs, h3app, h3apc, h3sts, h3des1, h3dest, h3pref, h3shA, h3shB⟩ := h3
    have hgood4 : good (tr3 ++ [Event.appendStatus (driverPolled e t st2)]) := by
      simp only [good, observationsOf_append, appliedOf_append, statusesOf_append,
        desiredOf_append, List.length_append]
      simp only [observationsOf, appliedOf, statusesOf, desiredOf, List.length_cons,
        List.length_nil]
      omega
    have hpref4 : goodPref (tr3 ++ [Event.appendStatus (driverPolled e t st2)]) :=
      goodPref_snoc h3pref hgood4
    have hpref5 : goodPref (tr3 ++ [Event.appendStatus (driverPolled e t st2)] ++
        (e.waitArrivals t).map Event.clientAppendDesired) :=
      goodPref_clients hpref4 (e.waitArrivals t)
    have hshut5 : (Event.driverShutdown : Event A O) ∉ tr3 ++
          [Event.appendStatus (driverPolled e t st2)] ++
          (e.waitArrivals t).map Event.clientAppendDesired ∧
        (Event.loopRunningFalse : Event A O) ∉ tr3 ++
          [Event.appendStatus (driverPolled e t st2)] ++
          (e.waitArrivals t).map Event.clientAppendDesired := by
      constructor <;> simp [h3shA, h3shB]
    by_cases herr : (driverPolled e t st2).error_status = ErrorStatus.NO_ERROR
    · by_cases hw : (false || e.reqAtWait t || e.sigAtWait t) = true
      · rw [stepBody_eq_go htop' hadm, stepRest_eq_waitShutdown herr hw]
        refine ⟨fun tr' flag' h => by simp at h, fun r h => ?_⟩
        injection h with h
        subst h
        refine ⟨by simp, goodPref_shutdownEvents hpref5, ?_, ?_⟩
        · exact fun _ => ⟨_, rfl, hshut5.1, hshut5.2⟩
        · exact fun h => absurd rfl h
      · have hw' : (false || e.reqAtWait t || e.sigAtWait t) = false := by simpa using hw
        rcases hget : (desiredOf (tr3 ++ [Event.appendStatus (driverPolled e t st2)] ++
            (e.waitArrivals t).map Event.clientAppendDesired)).get? t with _ | a
        · rw [stepBody_eq_go htop' hadm, stepRest_eq_blocked herr hw' hget]
          refine ⟨fun tr' flag' h => by simp at h, fun r h => ?_⟩
          injection h with h
          subst h
          refine ⟨by simp, hpref5, ?_, ?_⟩
          · intro h; simp at h
          · exact fun _ => ⟨hshut5.1, hshut5.2⟩
        · rw [stepBody_eq_go htop' hadm, stepRest_eq_cont herr hw' hget]
          refine ⟨fun tr' flag' h => ?_, fun r h => by simp at h⟩
          injection h with h1 h2
          subst h1
          subst h2
          obtain ⟨hlt5, _⟩ := List.get?_eq_some.mp hget
          have hlt5' : t < (desiredOf tr3).length + (e.waitArrivals t).length := by
            simpa [desiredOf] using hlt5
          exact Inv_cont_aux e t tr3 (driverPolled e t st2) a h3obs h3app h3apc h3sts hpref5
            h3shA h3shB hlt5'
    · have herr' : (driverPolled e t st2).error_status ≠ ErrorStatus.NO_ERROR := herr
      rw [stepBody_eq_go htop' hadm, stepRest_eq_error herr']
      refine ⟨fun tr' flag' h => by simp at h, fun r h => ?_⟩
      injection h with h
      subst h
      have heq : tr3 ++ [Event.appendStatus (driverPolled e t st2), Event.driverShutdown,
          Event.loopRunningFalse] =
          tr3 ++ [Event.appendStatus (driverPolled e t st2)] ++
          [Event.driverShutdown, Event.loopRunningFalse] := by simp
      refine ⟨by simp, ?_, ?_, ?_⟩
      · rw [heq]
        exact goodPref_shutdownEvents hpref4
      · intro _
        refine ⟨tr3 ++ [Event.appendStatus (driverPolled e t st2)], heq, ?_, ?_⟩ <;>
          simp [h3shA, h3shB]
      · exact fun h => absurd rfl h

theorem loopFrom_spec (e : Env A O) (fuel : Nat) :
    ∀ (t : Nat) (tr : List (Event A O)) (flag : Bool), Inv e t tr flag →
    (loopFrom e fuel t tr flag).exit ≠ RunExit.emptySeriesFailure ∧
    goodPref (loopFrom e fuel t tr flag).trace ∧
    ((loopFrom e fuel t tr flag).exit = RunExit.exited →
      ∃ p, (loopFrom e fuel t tr flag).trace =
          p ++ [Event.driverShutdown, Event.loopRunningFalse] ∧
        (Event.driverShutdown : Event A O) ∉ p ∧ (Event.loopRunningFalse : Event A O) ∉ p) ∧
    ((loopFrom e fuel t tr flag).exit ≠ RunExit.exited →
      (Event.driverShutdown : Event A O) ∉ (loopFrom e fuel t tr flag).trace ∧
      (Event.loopRunningFalse : Event A O) ∉ (loopFrom e fuel t tr flag).trace) := by
  induction fuel with
  | zero =>
    intro t tr flag inv
    refine ⟨by simp [loopFrom], by simpa [loopFrom] using inv.hpref, ?_, ?_⟩
    · intro h; simp [loopFrom] at h
    · intro _; simpa [loopFrom] using inv.hshut
  | succ fuel ih =>
    intro t tr flag inv
    obtain ⟨hcont, hhalt⟩ := stepBody_spec e t tr flag inv
    rcases hstep : stepBody e t tr flag with ⟨tr', flag'⟩ | ⟨r⟩
    · have heq : loopFrom e (fuel + 1) t tr flag = loopFrom e fuel (t + 1) tr' flag' := by
        simp [loopFrom, hstep]
      rw [heq]
      exact ih (t + 1) tr' flag' (hcont tr' flag' hstep)
    · have heq : loopFrom e (fuel + 1) t tr flag = r := by
        simp [loopFrom, hstep]
      rw [heq]
      exact hhalt r hstep

theorem goodPref_nil : goodPref ([] : List (Event A O)) := by
  intro p hp
  rcases hp with ⟨q, hq⟩
  have hp0 : p = [] := by
    cases p
    · rfl
    · simp at hq
  subst hp0
  refine ⟨?_, ?_, ?_, ?_⟩ <;> simp [observationsOf, appliedOf, statusesOf, desiredOf]

theorem phaseA_spec (e : Env A O) (fuel : Nat) :
    ∀ (k : Nat) (tr : List (Event A O)),
    (observationsOf tr).length = 0 → (appliedOf tr).length = 0 →
    (applyCallsOf tr).length = 0 → (statusesOf tr).length = 0 → goodPref tr →
    (Event.driverShutdown : Event A O) ∉ tr → (Event.loopRunningFalse : Event A O) ∉ tr →
    ∀ tr' flag', phaseA e fuel k tr false = some (tr', flag') → Inv e 0 tr' flag' := by
  induction fuel with
  | zero =>
    intro k tr _ _ _ _ _ _ _ tr' flag' h
    simp [phaseA] at h
  | succ fuel ih =>
    intro k tr h1 h2 h3 h4 h5 h6 h7 tr' flag' h
    by_cases hsig : (false || e.phaseAReq k || e.phaseASig k) = true
    · have hsig2 : e.phaseAReq k = true ∨ e.phaseASig k = true := by simpa using hsig
      have hsig3 : (e.phaseAReq k || e.phaseASig k) = true := by simpa using hsig
      rw [show phaseA e (fuel + 1) k tr false = some (tr, true) by
        simp [phaseA, hsig2, hsig3]] at h
      injection h with h
      injection h with ha hb
      subst ha; subst hb
      exact ⟨h1, h2, h3, Or.inl h4, Or.inl rfl, h5, h6, h7⟩
    · have hsig' : (false || e.phaseAReq k || e.phaseASig k) = false := by simpa using hsig
      have hr : e.phaseAReq k = false := by
        rcases Bool.or_eq_false_iff.mp hsig' with ⟨hx, _⟩
        exact (Bool.or_eq_false_iff.mp hx).2
      have hs : e.phaseASig k = false := (Bool.or_eq_false_iff.mp hsig').2
      have hp2 : goodPref (tr ++ (e.phaseAArrivals k).map Event.clientAppendDesired) :=
        goodPref_clients h5 (e.phaseAArrivals k)
      have hfacts : (observationsOf (tr ++ (e.phaseAArrivals k).map
            Event.clientAppendDesired)).length = 0 ∧
          (appliedOf (tr ++ (e.phaseAArrivals k).map Event.clientAppendDesired)).length = 0 ∧
          (applyCallsOf (tr ++ (e.phaseAArrivals k).map Event.clientAppendDesired)).length = 0 ∧
          (statusesOf (tr ++ (e.phaseAArrivals k).map Event.clientAppendDesired)).length = 0 := by
        refine ⟨?_, ?_, ?_, ?_⟩ <;> simp [h1, h2, h3, h4]
      have hsh2 : (Event.driverShutdown : Event A O) ∉
            tr ++ (e.phaseAArrivals k).map Event.clientAppendDesired ∧
          (Event.loopRunningFalse : Event A O) ∉
            tr ++ (e.phaseAArrivals k).map Event.clientAppendDesired := by
        constructor <;> simp [h6, h7]
      by_cases hne : 0 < (desiredOf (tr ++ (e.phaseAArrivals k).map
          Event.clientAppendDesired)).length
      · have hne' : 0 < (desiredOf tr).length ∨ 0 < (e.phaseAArrivals k).length := by
          simpa using hne
        rw [show phaseA e (fuel + 1) k tr false =
            some (tr ++ (e.phaseAArrivals k).map Event.clientAppendDesired, false) by
          simp [phaseA, hr, hs, hne']] at h
        injection h with h
        injection h with ha hb
        subst ha; subst hb
        exact ⟨hfacts.1, hfacts.2.1, hfacts.2.2.1, Or.inl hfacts.2.2.2,
          Or.inr ⟨by omega, by omega⟩, hp2, hsh2.1, hsh2.2⟩
      · by_cases hto : e.phaseATimeout k = true
        · have hd0 : (desiredOf tr).length = 0 ∧ (e.phaseAArrivals k).length = 0 := by
            constructor <;> by_contra hc <;> exact hne (by simp <;> omega)
          rw [show phaseA e (fuel + 1) k tr false =
              some (tr ++ (e.phaseAArrivals k).map Event.clientAppendDesired ++
                [Event.appendStatus (Status.init.set_error ErrorStatus.BACKEND_ERROR
                  "First action was not provided in time")], true) by
            simp [phaseA, hr, hs, hd0.1, hd0.2, hto]] at h
          injection h with h
          injection h with ha hb
          subst ha; subst hb
          have hgood : good (tr ++ (e.phaseAArrivals k).map Event.clientAppendDesired ++
              [Event.appendStatus (Status.init.set_error ErrorStatus.BACKEND_ERROR
                "First action was not provided in time")]) := by
            refine ⟨?_, ?_, ?_, ?_⟩ <;>
              simp [observationsOf, appliedOf, statusesOf, desiredOf, h1, h2, h3, h4]
          refine ⟨?_, ?_, ?_, Or.inr ⟨?_, rfl, rfl⟩, Or.inl rfl,
            goodPref_snoc hp2 hgood, ?_, ?_⟩ <;>
            simp [observationsOf, appliedOf, applyCallsOf, statusesOf, hfacts.1, hfacts.2.1,
              hfacts.2.2.1, hfacts.2.2.2, hsh2.1, hsh2.2, h1, h2, h3, h4, h6, h7]
        · have hto' : e.phaseATimeout k = false := by simpa using hto
          have hd0 : (desiredOf tr).length = 0 ∧ (e.phaseAArrivals k).length = 0 := by
            constructor <;> by_contra hc <;> exact hne (by simp <;> omega)
          rw [show phaseA e (fuel + 1) k tr false =
              phaseA e fuel (k + 1) (tr ++ (e.phaseAArrivals k).map
                Event.clientAppendDesired) false by
            simp [phaseA, hr, hs, hd0.1, hd0.2, hto']] at h
          exact ih (k + 1) _ hfacts.1 hfacts.2.1 hfacts.2.2.1 hfacts.2.2.2 hp2
            hsh2.1 hsh2.2 tr' flag' h

/-- Every terminated point and every intermediate point of a whole run
satisfies the crash-freedom, ordering and shutdown-shape properties. -/
theorem runBackend_spec (e : Env A O) (fuel : Nat) :
    (runBackend e fuel).exit ≠ RunExit.emptySeriesFailure ∧
    goodPref (runBackend e fuel).trace ∧
    ((runBackend e fuel).exit = RunExit.exited →
      ∃ p, (runBackend e fuel).trace = p ++ [Event.driverShutdown, Event.loopRunningFalse] ∧
        (Event.driverShutdown : Event A O) ∉ p ∧ (Event.loopRunningFalse : Event A O) ∉ p) ∧
    ((runBackend e fuel).exit ≠ RunExit.exited →
      (Event.driverShutdown : Event A O) ∉ (runBackend e fuel).trace ∧
      (Event.loopRunningFalse : Event A O) ∉ (runBackend e fuel).trace) := by
  unfold runBackend
  rcases hpa : phaseA e fuel 0 [] false with _ | ⟨tr, flag⟩
  · refine ⟨by simp, goodPref_nil, ?_, ?_⟩
    · intro h; simp at h
    · intro _; simp
  · have inv := phaseA_spec e fuel 0 []
      (by simp [observationsOf]) (by simp [appliedOf]) (by simp [applyCallsOf])
      (by simp [statusesOf]) goodPref_nil (by simp) (by simp) tr flag hpa
    exact loopFrom_spec e fuel 0 tr flag inv

end StepSpec

section SmallFacts

variable {A O : Type}

theorem presetStatus_eq_init {e : Env A O} {t : Nat}
    (h : ¬(0 < e.max_number_of_actions ∧ e.max_number_of_actions ≤ t)) :
    presetStatus e t = Status.init := by
  simp [presetStatus, h]

theorem presetStatus_eq_limit {e : Env A O} {t : Nat}
    (h1 : 0 < e.max_number_of_actions) (h2 : e.max_number_of_actions ≤ t) :
    presetStatus e t =
      Status.init.set_error ErrorStatus.BACKEND_ERROR "Maximum number of actions reached." := by
  simp [presetStatus, h1, h2]

theorem driverPolled_eq_self {e : Env A O} {t : Nat} {st : Status}
    (h : e.get_error t = "") : driverPolled e t st = st := by
  simp [driverPolled, h]

theorem driverPolled_eq_err {e : Env A O} {t : Nat} {st : Status}
    (h : e.get_error t ≠ "") :
    driverPolled e t st = st.set_error ErrorStatus.DRIVER_ERROR (e.get_error t) := by
  simp [driverPolled, h]

theorem driverPolled_reps (e : Env A O) (t : Nat) (st : Status) :
    (driverPolled e t st).action_repetitions = st.action_repetitions := by
  by_cases h : e.get_error t = ""
  · rw [driverPolled_eq_self h]
  · rw [driverPolled_eq_err h]
    rfl

theorem presetStatus_reps (e : Env A O) (t : Nat) :
    (presetStatus e t).action_repetitions = 0 := by
  by_cases h : 0 < e.max_number_of_actions ∧ e.max_number_of_actions ≤ t
  · rw [presetStatus_eq_limit h.1 h.2]
    rfl
  · rw [presetStatus_eq_init h]
    rfl

/-- Whatever branch `stepRest` takes, its outcome trace is the incoming
trace, then the appended status, then a tail that holds no status and no
backend desired-action append; when the step halts, the tail holds no
observation, applied action or apply-call either. -/
theorem stepRest_outTrace_facts (e : Env A O) (t : Nat) (tr : List (Event A O))
    (flag : Bool) (st : Status) :
    ∃ rest, (stepRest e t tr flag st).outTrace =
        tr ++ [Event.appendStatus (driverPolled e t st)] ++ rest ∧
      statusesOf rest = [] ∧ backendAppendsOf rest = [] ∧ observationsOf rest = [] ∧
      (∀ r, stepRest e t tr flag st = StepOutcome.halt r →
        appliedOf rest = [] ∧ applyCallsOf rest = []) := by
  by_cases herr : (driverPolled e t st).error_status = ErrorStatus.NO_ERROR
  · by_cases hw : (flag || e.reqAtWait t || e.sigAtWait t) = true
    · refine ⟨(e.waitArrivals t).map Event.clientAppendDesired ++
        [Event.driverShutdown, Event.loopRunningFalse], ?_, ?_, ?_, ?_, ?_⟩ <;>
        simp [stepRest_eq_waitShutdown herr hw, StepOutcome.outTrace, statusesOf,
          backendAppendsOf, observationsOf, appliedOf, applyCallsOf]
    · have hw' : (flag || e.reqAtWait t || e.sigAtWait t) = false := by simpa using hw
      rcases hget : (desiredOf (tr ++ [Event.appendStatus (driverPolled e t st)] ++
          (e.waitArrivals t).map Event.clientAppendDesired)).get? t with _ | a
      · refine ⟨(e.waitArrivals t).map Event.clientAppendDesired, ?_, ?_, ?_, ?_, ?_⟩ <;>
          simp [stepRest_eq_blocked herr hw' hget, StepOutcome.outTrace, statusesOf,
            backendAppendsOf, observationsOf, appliedOf, applyCallsOf]
      · refine ⟨(e.waitArrivals t).map Event.clientAppendDesired ++
          [Event.applyActionCall a, Event.appendApplied (e.apply_action a)], ?_, ?_, ?_, ?_, ?_⟩
        · simp [stepRest_eq_cont herr hw' hget, StepOutcome.outTrace]
        · simp [statusesOf]
        · simp [backendAppendsOf]
        · simp [observationsOf]
        · intro r hr
          rw [stepRest_eq_cont herr hw' hget] at hr
          simp at hr
  · refine ⟨[Event.driverShutdown, Event.loopRunningFalse], ?_, ?_, ?_, ?_, ?_⟩ <;>
      simp [stepRest_eq_error herr, StepOutcome.outTrace, statusesOf, backendAppendsOf,
        observationsOf, appliedOf, applyCallsOf]

theorem phaseA_first_arrival (e : Env A O) (fuel : Nat)
    (hsig : (e.phaseAReq 0 || e.phaseASig 0) = false)
    (harr : 0 < (e.phaseAArrivals 0).length) (hfuel : 1 ≤ fuel) :
    phaseA e fuel 0 [] false =
      some ((e.phaseAArrivals 0).map Event.clientAppendDesired, false) := by
  rcases fuel with _ | fuel
  · omega
  · have hr : e.phaseAReq 0 = false := (Bool.or_eq_false_iff.mp hsig).1
    have hs : e.phaseASig 0 = false := (Bool.or_eq_false_iff.mp hsig).2
    simp [phaseA, hr, hs, harr]

end SmallFacts

/-- Two environments that are identical except for how each observed
shutdown condition is split between the `request_shutdown` flag and the
SIGINT flag: at every check the disjunction of the two sources is the
same.  This is exactly the information `has_shutdown_request()` exposes. -/
structure SignalEquiv {A O : Type} (e1 e2 : Env A O) : Prop where
  rtm : e1.real_time_mode = e2.real_time_mode
  mna : e1.max_number_of_actions = e2.max_number_of_actions
  mar : e1.max_action_repetitions = e2.max_action_repetitions
  obs : e1.get_latest_observation = e2.get_latest_observation
  err : e1.get_error = e2.get_error
  app : e1.apply_action = e2.apply_action
  paA : e1.phaseAArrivals = e2.phaseAArrivals
  paT : e1.phaseATimeout = e2.phaseATimeout
  mid : e1.midAppends = e2.midAppends
  wtA : e1.waitArrivals = e2.waitArrivals
  paS : ∀ k, (e1.phaseAReq k || e1.phaseASig k) = (e2.phaseAReq k || e2.phaseASig k)
  topS : ∀ t, (e1.reqAtTop t || e1.sigAtTop t) = (e2.reqAtTop t || e2.sigAtTop t)
  wtS : ∀ t, (e1.reqAtWait t || e1.sigAtWait t) = (e2.reqAtWait t || e2.sigAtWait t)

section Congruence

variable {A O : Type}

theorem trAfterObs_congr {e1 e2 : Env A O} (h : SignalEquiv e1 e2) (t : Nat)
    (tr : List (Event A O)) : trAfterObs e1 t tr = trAfterObs e2 t tr := by
  unfold trAfterObs
  rw [h.obs, h.mid]

theorem presetStatus_congr {e1 e2 : Env A O} (h : SignalEquiv e1 e2) (t : Nat) :
    presetStatus e1 t = presetStatus e2 t := by
  unfold presetStatus
  rw [h.mna]

theorem admission_congr {e1 e2 : Env A O} (h : SignalEquiv e1 e2) (t : Nat)
    (tr : List (Event A O)) (st : Status) :
    admission e1 t tr st = admission e2 t tr st := by
  unfold admission
  rw [h.rtm, h.mar]

theorem stepRest_congr {e1 e2 : Env A O} (h : SignalEquiv e1 e2) (t : Nat)
    (tr : List (Event A O)) (flag : Bool) (st : Status) :
    stepRest e1 t tr flag st = stepRest e2 t tr flag st := by
  unfold stepRest driverPolled
  rw [h.err, h.wtA, h.app]
  rw [show (flag || e1.reqAtWait t || e1.sigAtWait t) =
    (flag || e2.reqAtWait t || e2.sigAtWait t) by
    rw [Bool.or_assoc, Bool.or_assoc, h.wtS t]]

theorem stepBody_congr {e1 e2 : Env A O} (h : SignalEquiv e1 e2) (t : Nat)
    (tr : List (Event A O)) (flag : Bool) :
    stepBody e1 t tr flag = stepBody e2 t tr flag := by
  unfold stepBody
  rw [trAfterObs_congr h, presetStatus_congr h, admission_congr h]
  rw [show (flag || e1.reqAtTop t || e1.sigAtTop t) =
    (flag || e2.reqAtTop t || e2.sigAtTop t) by
    rw [Bool.or_assoc, Bool.or_assoc, h.topS t]]
  rw [show @stepRest A O e1 = @stepRest A O e2 by
    funext t' tr' flag' st'
    exact stepRest_congr h t' tr' flag' st']

theorem loopFrom_congr {e1 e2 : Env A O} (h : SignalEquiv e1 e2) :
    ∀ (fuel t : Nat) (tr : List (Event A O)) (flag : Bool),
    loopFrom e1 fuel t tr flag = loopFrom e2 fuel t tr flag := by
  intro fuel
  induction fuel with
  | zero => intro t tr flag; rfl
  | succ fuel ih =>
    intro t tr flag
    simp only [loopFrom]
    rw [stepBody_congr h t tr flag]
    rcases hst : stepBody e2 t tr flag with ⟨tr', flag'⟩ | r
    · exact ih (t + 1) tr' flag'
    · rfl

theorem phaseA_congr {e1 e2 : Env A O} (h : SignalEquiv e1 e2) :
    ∀ (fuel k : Nat) (tr : List (Event A O)) (flag : Bool),
    phaseA e1 fuel k tr flag = phaseA e2 fuel k tr flag := by
  intro fuel
  induction fuel with
  | zero => intro k tr flag; rfl
  | succ fuel ih =>
    intro k tr flag
    simp only [phaseA]
    rw [h.paA, h.paT]
    rw [show (flag || e1.phaseAReq k || e1.phaseASig k) =
      (flag || e2.phaseAReq k || e2.phaseASig k) by
      rw [Bool.or_assoc, Bool.or_assoc, h.paS k]]
    rw [show @phaseA A O e1 fuel = @phaseA A O e2 fuel by
      funext k' tr' flag'
      exact ih k' tr' flag']

theorem runBackend_congr {e1 e2 : Env A O} (h : SignalEquiv e1 e2) (fuel : Nat) :
    runBackend e1 fuel = runBackend e2 fuel := by
  unfold runBackend
  rw [phaseA_congr h fuel 0 [] false]
  rw [show @loopFrom A O e1 = @loopFrom A O e2 by
    funext fuel' t' tr' flag'
    exact loopFrom_congr h fuel' t' tr' flag']

end Congruence

section NonRealTime

variable {A O : Type}

theorem C8_loop_aux (e : Env A O) (hrt : e.real_time_mode = false) :
    ∀ (fuel t : Nat) (tr : List (Event A O)) (flag : Bool),
    backendAppendsOf tr = [] → (∀ s ∈ statusesOf tr, s.action_repetitions = 0) →
    backendAppendsOf (loopFrom e fuel t tr flag).trace = [] ∧
    ∀ s ∈ statusesOf (loopFrom e fuel t tr flag).trace, s.action_repetitions = 0 := by
  intro fuel
  induction fuel with
  | zero => intro t tr flag hb hs; exact ⟨hb, hs⟩
  | succ fuel ih =>
    intro t tr flag hb hs
    by_cases htop : (flag || e.reqAtTop t || e.sigAtTop t) = true
    · have heq : loopFrom e (fuel + 1) t tr flag =
          ⟨tr ++ [Event.driverShutdown, Event.loopRunningFalse], RunExit.exited⟩ := by
        simp [loopFrom, stepBody_eq_top htop]
      rw [heq]
      constructor
      · simp [backendAppendsOf, hb]
      · intro s hmem
        refine hs s ?_
        simpa [statusesOf] using hmem
    · have htop' : (flag || e.reqAtTop t || e.sigAtTop t) = false := by simpa using htop
      have hadm : admission e t (trAfterObs e t tr) (presetStatus e t) =
          some (trAfterObs e t tr, presetStatus e t) :=
        admission_eq_skip (by rw [hrt]; simp)
      obtain ⟨rest, hout, hrs, hrb, hro, _⟩ :=
        stepRest_outTrace_facts e t (trAfterObs e t tr) false (presetStatus e t)
      have hb2 : backendAppendsOf (trAfterObs e t tr ++
          [Event.appendStatus (driverPolled e t (presetStatus e t))] ++ rest) = [] := by
        simp [trAfterObs, backendAppendsOf, hb, hrb]
      have hs2 : ∀ s ∈ statusesOf (trAfterObs e t tr ++
          [Event.appendStatus (driverPolled e t (presetStatus e t))] ++ rest),
          s.action_repetitions = 0 := by
        intro s hmem
        simp only [statusesOf_append, List.mem_append] at hmem
        rcases hmem with (hmem | hmem) | hmem
        · refine hs s ?_
          simpa [trAfterObs, statusesOf] using hmem
        · have : s = driverPolled e t (presetStatus e t) := by
            simpa [statusesOf] using hmem
          rw [this, driverPolled_reps, presetStatus_reps]
        · rw [hrs] at hmem
          simp at hmem
      rcases hso : stepRest e t (trAfterObs e t tr) false (presetStatus e t) with
        ⟨tr', flag'⟩ | r
      · have heq : loopFrom e (fuel + 1) t tr flag = loopFrom e fuel (t + 1) tr' flag' := by
          simp [loopFrom, stepBody_eq_go htop' hadm, hso]
        rw [heq]
        have htr' : tr' = trAfterObs e t tr ++
            [Event.appendStatus (driverPolled e t (presetStatus e t))] ++ rest := by
          rw [← hout, hso]
          rfl
        subst htr'
        exact ih (t + 1) _ flag' hb2 hs2
      · have heq : loopFrom e (fuel + 1) t tr flag = r := by
          simp [loopFrom, stepBody_eq_go htop' hadm, hso]
        rw [heq]
        have htr' : r.trace = trAfterObs e t tr ++
            [Event.appendStatus (driverPolled e t (presetStatus e t))] ++ rest := by
          rw [← hout, hso]
          rfl
        rw [htr']
        exact ⟨hb2, hs2⟩

theorem phaseA_extension (e : Env A O) :
    ∀ (fuel k : Nat) (tr : List (Event A O)) (flag : Bool) (tr' : List (Event A O))
      (flag' : Bool), phaseA e fuel k tr flag = some (tr', flag') →
    ∃ ext, tr' = tr ++ ext ∧ backendAppendsOf ext = [] ∧
      (∀ s ∈ statusesOf ext, s.action_repetitions = 0) ∧ appliedOf ext = [] ∧
      observationsOf ext = [] ∧ applyCallsOf ext = [] := by
  intro fuel
  induction fuel with
  | zero => intro k tr flag tr' flag' h; simp [phaseA] at h
  | succ fuel ih =>
    intro k tr flag tr' flag' h
    by_cases hsig : (flag || e.phaseAReq k || e.phaseASig k) = true
    · rw [show phaseA e (fuel + 1) k tr flag = some (tr, flag || e.phaseAReq k || e.phaseASig k) by
        simp only [phaseA]
        rw [if_pos hsig]] at h
      injection h with h
      injection h with ha _
      subst ha
      exact ⟨[], by simp, rfl, by simp [statusesOf], rfl, rfl, rfl⟩
    · have hsig' : (flag || e.phaseAReq k || e.phaseASig k) = false := by simpa using hsig
      by_cases hne : 0 < (desiredOf (tr ++ (e.phaseAArrivals k).map
          Event.clientAppendDesired)).length
      · rw [show phaseA e (fuel + 1) k tr flag =
            some (tr ++ (e.phaseAArrivals k).map Event.clientAppendDesired,
              flag || e.phaseAReq k || e.phaseASig k) by
          simp only [phaseA]
          rw [if_neg (by simp [hsig']), if_pos hne]] at h
        injection h with h
        injection h with ha _
        subst ha
        exact ⟨(e.phaseAArrivals k).map Event.clientAppendDesired, rfl, by simp,
          by simp, by simp, by simp, by simp⟩
      · by_cases hto : e.phaseATimeout k = true
        · rw [show phaseA e (fuel + 1) k tr flag =
              some (tr ++ (e.phaseAArrivals k).map Event.clientAppendDesired ++
                [Event.appendStatus (Status.init.set_error ErrorStatus.BACKEND_ERROR
                  "First action was not provided in time")], true) by
            simp only [phaseA]
            rw [if_neg (by simp [hsig']), if_neg hne, if_pos hto]] at h
          injection h with h
          injection h with ha _
          subst ha
          refine ⟨(e.phaseAArrivals k).map Event.clientAppendDesired ++
            [Event.appendStatus (Status.init.set_error ErrorStatus.BACKEND_ERROR
              "First action was not provided in time")], by simp, by simp [backendAppendsOf],
            ?_, by simp [appliedOf], by simp [observationsOf], by simp [applyCallsOf]⟩
          intro s hmem
          have : s = Status.init.set_error ErrorStatus.BACKEND_ERROR
              "First action was not provided in time" := by
            simpa [statusesOf] using hmem
          rw [this]
          rfl
        · rw [show phaseA e (fuel + 1) k tr flag =
              phaseA e fuel (k + 1) (tr ++ (e.phaseAArrivals k).map
                Event.clientAppendDesired) (flag || e.phaseAReq k || e.phaseASig k) by
            simp only [phaseA]
            rw [if_neg (by simp [hsig']), if_neg hne, if_neg (by simp [hto])]] at h
          obtain ⟨ext, hext, hb, hs, ha, ho, hc⟩ := ih (k + 1) _ _ tr' flag' h
          refine ⟨(e.phaseAArrivals k).map Event.clientAppendDesired ++ ext,
            by rw [hext]; simp, by simp [hb], ?_, by simp [ha], by simp [ho], by simp [hc]⟩
          intro s hmem
          simp only [statusesOf_append, statusesOf_map_client, List.nil_append] at hmem
          exact hs s hmem

end NonRealTime

section FirstActionTimeout

variable {A O : Type}

theorem phaseA_timeout_run (e : Env A O) :
    ∀ (K fuel k : Nat), (∀ j < K, e.phaseATimeout (k + j) = false) →
    e.phaseATimeout (k + K) = true → (∀ j ≤ K, e.phaseAArrivals (k + j) = []) →
    (∀ j ≤ K, (e.phaseAReq (k + j) || e.phaseASig (k + j)) = false) → K < fuel →
    phaseA e fuel k [] false = some ([Event.appendStatus (Status.init.set_error
      ErrorStatus.BACKEND_ERROR "First action was not provided in time")], true) := by
  intro K
  induction K with
  | zero =>
    intro fuel k hKlt hKto harr hsig hfuel
    rcases fuel with _ | fuel
    · omega
    · have hr : e.phaseAReq k = false := by
        have := hsig 0 (Nat.le_refl 0)
        rw [Nat.add_zero] at this
        exact (Bool.or_eq_false_iff.mp this).1
      have hs : e.phaseASig k = false := by
        have := hsig 0 (Nat.le_refl 0)
        rw [Nat.add_zero] at this
        exact (Bool.or_eq_false_iff.mp this).2
      have ha : e.phaseAArrivals k = [] := by
        have := harr 0 (Nat.le_refl 0)
        rwa [Nat.add_zero] at this
      have hto : e.phaseATimeout k = true := by
        have := hKto
        rwa [Nat.add_zero] at this
      simp [phaseA, hr, hs, ha, hto, desiredOf]
  | succ K ihK =>
    intro fuel k hKlt hKto harr hsig hfuel
    rcases fuel with _ | fuel
    · omega
    · have hr : e.phaseAReq k = false := by
        have := hsig 0 (Nat.zero_le _)
        rw [Nat.add_zero] at this
        exact (Bool.or_eq_false_iff.mp this).1
      have hs : e.phaseASig k = false := by
        have := hsig 0 (Nat.zero_le _)
        rw [Nat.add_zero] at this
        exact (Bool.or_eq_false_iff.mp this).2
      have ha : e.phaseAArrivals k = [] := by
        have := harr 0 (Nat.zero_le _)
        rwa [Nat.add_zero] at this
      have hto : e.phaseATimeout k = false := by
        have := hKlt 0 (Nat.succ_pos K)
        rwa [Nat.add_zero] at this
      have hstep : phaseA e (fuel + 1) k [] false = phaseA e fuel (k + 1) [] false := by
        simp [phaseA, hr, hs, ha, hto, desiredOf]
      rw [hstep]
      refine ihK fuel (k + 1) ?_ ?_ ?_ ?_ (by omega)
      · intro j hj
        have := hKlt (j + 1) (by omega)
        rwa [show k + (j + 1) = k + 1 + j by omega] at this
      · have := hKto
        rwa [show k + (K + 1) = k + 1 + K by omega] at this
      · intro j hj
        have := harr (j + 1) (by omega)
        rwa [show k + (j + 1) = k + 1 + j by omega] at this
      · intro j hj
        have := hsig (j + 1) (by omega)
        rwa [show k + (j + 1) = k + 1 + j by omega] at this

end FirstActionTimeout

section ActionLimit

variable {A O : Type}

theorem C4_loop_aux (e : Env A O) (hN : 0 < e.max_number_of_actions) :
    ∀ (fuel t : Nat) (tr : List (Event A O)) (flag : Bool), Inv e t tr flag →
    t ≤ e.max_number_of_actions →
    (observationsOf (loopFrom e fuel t tr flag).trace).length ≤
        e.max_number_of_actions + 1 ∧
    (statusesOf (loopFrom e fuel t tr flag).trace).length ≤ e.max_number_of_actions + 1 ∧
    (appliedOf (loopFrom e fuel t tr flag).trace).length ≤ e.max_number_of_actions ∧
    ∀ s, (statusesOf (loopFrom e fuel t tr flag).trace).get? e.max_number_of_actions =
        some s →
      s.error_status = ErrorStatus.DRIVER_ERROR ∨
      (s.error_status = ErrorStatus.BACKEND_ERROR ∧
        (s.error_message = "Maximum number of actions reached." ∨
         s.error_message = "Next action was not provided in time")) := by
  intro fuel
  induction fuel with
  | zero =>
    intro t tr flag inv hle
    have hsb : (statusesOf tr).length ≤ t ∨ (statusesOf tr).length = 1 := by
      rcases inv.hsts with h | ⟨h, _, _⟩
      · exact Or.inl (le_of_eq h)
      · exact Or.inr h
    have hobs := inv.hobs
    have happ := inv.happ
    refine ⟨by simp only [loopFrom]; omega, by simp only [loopFrom]; omega,
      by simp only [loopFrom]; omega, ?_⟩
    simp only [loopFrom]
    intro s hs
    obtain ⟨hlen, _⟩ := List.get?_eq_some.mp hs
    omega
  | succ fuel ih =>
    intro t tr flag inv hle
    by_cases htop : (flag || e.reqAtTop t || e.sigAtTop t) = true
    · have heq : loopFrom e (fuel + 1) t tr flag =
          ⟨tr ++ [Event.driverShutdown, Event.loopRunningFalse], RunExit.exited⟩ := by
        simp [loopFrom, stepBody_eq_top htop]
      have htr : (loopFrom e (fuel + 1) t tr flag).trace =
          tr ++ [Event.driverShutdown, Event.loopRunningFalse] := by rw [heq]
      have hsb : (statusesOf tr).length ≤ t ∨ (statusesOf tr).length = 1 := by
        rcases inv.hsts with h | ⟨h, _, _⟩
        · exact Or.inl (le_of_eq h)
        · exact Or.inr h
      have hobs := inv.hobs
      have happ := inv.happ
      have hS : (statusesOf (loopFrom e (fuel + 1) t tr flag).trace).length =
          (statusesOf tr).length := by rw [htr]; simp [statusesOf]
      have hO : (observationsOf (loopFrom e (fuel + 1) t tr flag).trace).length =
          (observationsOf tr).length := by rw [htr]; simp [observationsOf]
      have hA : (appliedOf (loopFrom e (fuel + 1) t tr flag).trace).length =
          (appliedOf tr).length := by rw [htr]; simp [appliedOf]
      refine ⟨by omega, by omega, by omega, ?_⟩
      intro s hs
      obtain ⟨hlen, _⟩ := List.get?_eq_some.mp hs
      omega
    · have htop' : (flag || e.reqAtTop t || e.sigAtTop t) = false := by simpa using htop
      have hflag : flag = false := by
        rcases Bool.or_eq_false_iff.mp htop' with ⟨h1, _⟩
        exact (Bool.or_eq_false_iff.mp h1).1
      have hstsLen : (statusesOf tr).length = t := by
        rcases inv.hsts with h | ⟨_, _, hfl⟩
        · exact h
        · rw [hflag] at hfl; cases hfl
      have hdesLen : 1 ≤ (desiredOf tr).length ∧ t ≤ (desiredOf tr).length := by
        rcases inv.hdes with hfl | h
        · rw [hflag] at hfl; cases hfl
        · exact h
      obtain ⟨hO2, hA2, hC2, hS2, hD2, hB2⟩ := trAfterObs_facts e t tr
      obtain ⟨tr3, st2, hadm, htr3, hst2⟩ :=
        admission_spec e t (trAfterObs e t tr) (presetStatus e t)
          (by rw [hD2]; simp only [List.length_append]; omega)
          (by
            intro hrt hlt
            rw [hS2, hstsLen]
            rw [hD2] at hlt
            simp only [List.length_append] at hlt
            omega)
      have h3obs : (observationsOf tr3).length = t + 1 := by
        rcases htr3 with rfl | ⟨aN, rfl⟩ <;> simp [hO2, inv.hobs, observationsOf]
      have h3sts : (statusesOf tr3).length = t := by
        rcases htr3 with rfl | ⟨aN, rfl⟩ <;> simp [hS2, hstsLen, statusesOf]
      have h3app : (appliedOf tr3).length = t := by
        rcases htr3 with rfl | ⟨aN, rfl⟩ <;> simp [hA2, inv.happ, appliedOf]
      obtain ⟨rest, hout, hrs, hrb, hro, hhalt⟩ := stepRest_outTrace_facts e t tr3 false st2
      rcases hso : stepRest e t tr3 false st2 with ⟨tr6, flag6⟩ | r
      · have herrNO : (driverPolled e t st2).error_status = ErrorStatus.NO_ERROR := by
          by_contra hcon
          rw [stepRest_eq_error hcon] at hso
          simp at hso
        have hltN : t < e.max_number_of_actions := by
          rcases Nat.lt_or_ge t e.max_number_of_actions with h | h
          · exact h
          · exfalso
            have hst2' : st2.error_status = ErrorStatus.BACKEND_ERROR := by
              rcases hst2 with ⟨h1, _⟩ | ⟨h1, _⟩
              · rw [h1, presetStatus_eq_limit hN h]
                rfl
              · exact h1
            by_cases hge : e.get_error t = ""
            · rw [driverPolled_eq_self hge, hst2'] at herrNO
              simp at herrNO
            · rw [driverPolled_eq_err hge] at herrNO
              simp [Status.set_error] at herrNO
        have hstep : stepBody e t tr flag = StepOutcome.cont tr6 flag6 := by
          rw [stepBody_eq_go htop' hadm, hso]
        have hinv6 := (stepBody_spec e t tr flag inv).1 tr6 flag6 hstep
        have heq : loopFrom e (fuel + 1) t tr flag = loopFrom e fuel (t + 1) tr6 flag6 := by
          simp [loopFrom, hstep]
        rw [heq]
        exact ih (t + 1) tr6 flag6 hinv6 (by omega)
      · have hstep : stepBody e t tr flag = StepOutcome.halt r := by
          rw [stepBody_eq_go htop' hadm, hso]
        have heq : loopFrom e (fuel + 1) t tr flag = r := by
          simp [loopFrom, hstep]
        have htrR : r.trace = tr3 ++ [Event.appendStatus (driverPolled e t st2)] ++ rest := by
          rw [hso] at hout
          simpa [StepOutcome.outTrace] using hout
        obtain ⟨hra, hrc⟩ := hhalt r hso
        have hSF : statusesOf (loopFrom e (fuel + 1) t tr flag).trace =
            statusesOf tr3 ++ [driverPolled e t st2] := by
          rw [heq, htrR]
          simp [statusesOf, hrs]
        have hOF : (observationsOf (loopFrom e (fuel + 1) t tr flag).trace).length = t + 1 := by
          rw [heq, htrR]
          simp [observationsOf, hro, h3obs]
        have hAF : (appliedOf (loopFrom e (fuel + 1) t tr flag).trace).length = t := by
          rw [heq, htrR]
          simp [appliedOf, hra, h3app]
        have hSFlen : (statusesOf (loopFrom e (fuel + 1) t tr flag).trace).length = t + 1 := by
          rw [hSF]
          simp [h3sts]
        refine ⟨by omega, by omega, by omega, ?_⟩
        intro s hs
        rw [hSF] at hs
        have hlen := (List.get?_eq_some.mp hs).1
        simp only [List.length_append, h3sts, List.length_cons, List.length_nil] at hlen
        have htN : t = e.max_number_of_actions := by omega
        have hat : (statusesOf tr3 ++ [driverPolled e t st2]).get?
            (statusesOf tr3).length = some (driverPolled e t st2) :=
          List.get?_concat_length _ _
        rw [h3sts] at hat
        rw [← htN] at hs
        rw [hat] at hs
        injection hs with hs
        subst hs
        by_cases hge : e.get_error t = ""
        · rw [driverPolled_eq_self hge]
          rcases hst2 with ⟨h1, h2⟩ | ⟨h1, h2⟩
          · have hpre := @presetStatus_eq_limit A O e t hN (by omega)
            rw [hpre] at h1 h2
            right
            exact ⟨h1, Or.inl h2⟩
          · right
            exact ⟨h1, Or.inr h2⟩
        · rw [driverPolled_eq_err hge]
          left
          rfl

end ActionLimit

section ApplyCount

variable {A O : Type}

/-- On a limited run (`0 < max_number_of_actions = N`) started from a
reachable state at step `t ≤ N`: if the final status series reaches length
N + 1 — i.e. the run survives to step N, which excludes every driver
error, repetition exhaustion and shutdown before step N, since each of
those ends the run with at most t + 1 ≤ N statuses — then the run exits
normally having called `apply_action` exactly N times, with N + 1
observations and N applied actions. -/
theorem C9_loop_aux (e : Env A O) (hN : 0 < e.max_number_of_actions) :
    ∀ (fuel t : Nat) (tr : List (Event A O)) (flag : Bool), Inv e t tr flag →
    t ≤ e.max_number_of_actions →
    (statusesOf (loopFrom e fuel t tr flag).trace).length =
      e.max_number_of_actions + 1 →
    (loopFrom e fuel t tr flag).exit = RunExit.exited ∧
    (applyCallsOf (loopFrom e fuel t tr flag).trace).length = e.max_number_of_actions ∧
    (observationsOf (loopFrom e fuel t tr flag).trace).length =
      e.max_number_of_actions + 1 ∧
    (appliedOf (loopFrom e fuel t tr flag).trace).length = e.max_number_of_actions := by
  intro fuel
  induction fuel with
  | zero =>
    intro t tr flag inv hle hreach
    exfalso
    simp only [loopFrom] at hreach
    rcases inv.hsts with h | ⟨h, _, _⟩ <;> omega
  | succ fuel ih =>
    intro t tr flag inv hle hreach
    by_cases htop : (flag || e.reqAtTop t || e.sigAtTop t) = true
    · have heq : loopFrom e (fuel + 1) t tr flag =
          ⟨tr ++ [Event.driverShutdown, Event.loopRunningFalse], RunExit.exited⟩ := by
        simp [loopFrom, stepBody_eq_top htop]
      have hreach2 : (statusesOf tr).length = e.max_number_of_actions + 1 := by
        rw [heq] at hreach
        simpa [statusesOf] using hreach
      exfalso
      rcases inv.hsts with h | ⟨h, _, _⟩ <;> omega
    · have htop' : (flag || e.reqAtTop t || e.sigAtTop t) = false := by simpa using htop
      have hflag : flag = false := by
        rcases Bool.or_eq_false_iff.mp htop' with ⟨h1, _⟩
        exact (Bool.or_eq_false_iff.mp h1).1
      have hstsLen : (statusesOf tr).length = t := by
        rcases inv.hsts with h | ⟨_, _, hfl⟩
        · exact h
        · rw [hflag] at hfl; cases hfl
      have hdesLen : 1 ≤ (desiredOf tr).length ∧ t ≤ (desiredOf tr).length := by
        rcases inv.hdes with hfl | h
        · rw [hflag] at hfl; cases hfl
        · exact h
      obtain ⟨hO2, hA2, hC2, hS2, hD2, hB2⟩ := trAfterObs_facts e t tr
      obtain ⟨tr3, st2, hadm, htr3, hst2⟩ :=
        admission_spec e t (trAfterObs e t tr) (presetStatus e t)
          (by rw [hD2]; simp only [List.length_append]; omega)
          (by
            intro hrt hlt
            rw [hS2, hstsLen]
            rw [hD2] at hlt
            simp only [List.length_append] at hlt
            omega)
      have h3obs : (observationsOf tr3).length = t + 1 := by
        rcases htr3 with rfl | ⟨aN, rfl⟩ <;> simp [hO2, inv.hobs, observationsOf]
      have h3sts : (statusesOf tr3).length = t := by
        rcases htr3 with rfl | ⟨aN, rfl⟩ <;> simp [hS2, hstsLen, statusesOf]
      have h3app : (appliedOf tr3).length = t := by
        rcases htr3 with rfl | ⟨aN, rfl⟩ <;> simp [hA2, inv.happ, appliedOf]
      have h3apc : (applyCallsOf tr3).length = t := by
        rcases htr3 with rfl | ⟨aN, rfl⟩ <;> simp [hC2, inv.hapc, applyCallsOf]
      by_cases htN : t = e.max_number_of_actions
      · have hst2' : st2.error_status = ErrorStatus.BACKEND_ERROR := by
          rcases hst2 with ⟨h1, _⟩ | ⟨h1, _⟩
          · rw [h1, @presetStatus_eq_limit A O e t hN (by omega)]
            rfl
          · exact h1
        have herrX : (driverPolled e t st2).error_status ≠ ErrorStatus.NO_ERROR := by
          by_cases hge : e.get_error t = ""
          · rw [driverPolled_eq_self hge, hst2']
            simp
          · rw [driverPolled_eq_err hge]
            simp [Status.set_error]
        have hstep : stepBody e t tr flag = StepOutcome.halt ⟨tr3 ++
            [Event.appendStatus (driverPolled e t st2), Event.driverShutdown,
             Event.loopRunningFalse], RunExit.exited⟩ := by
          rw [stepBody_eq_go htop' hadm, stepRest_eq_error herrX]
        have heq : loopFrom e (fuel + 1) t tr flag = ⟨tr3 ++
            [Event.appendStatus (driverPolled e t st2), Event.driverShutdown,
             Event.loopRunningFalse], RunExit.exited⟩ := by
          simp [loopFrom, hstep]
        rw [heq]
        refine ⟨rfl, ?_, ?_, ?_⟩ <;>
          simp [applyCallsOf, observationsOf, appliedOf, h3apc, h3obs, h3app, htN]
      · have hltN : t < e.max_number_of_actions := by omega
        obtain ⟨rest, hout, hrs, hrb, hro, hhalt⟩ :=
          stepRest_outTrace_facts e t tr3 false st2
        rcases hso : stepRest e t tr3 false st2 with ⟨tr6, flag6⟩ | r
        · have hstep : stepBody e t tr flag = StepOutcome.cont tr6 flag6 := by
            rw [stepBody_eq_go htop' hadm, hso]
          have hinv6 := (stepBody_spec e t tr flag inv).1 tr6 flag6 hstep
          have heq : loopFrom e (fuel + 1) t tr flag =
              loopFrom e fuel (t + 1) tr6 flag6 := by
            simp [loopFrom, hstep]
          rw [heq] at hreach ⊢
          exact ih (t + 1) tr6 flag6 hinv6 (by omega) hreach
        · have hstep : stepBody e t tr flag = StepOutcome.halt r := by
            rw [stepBody_eq_go htop' hadm, hso]
          have heq : loopFrom e (fuel + 1) t tr flag = r := by
            simp [loopFrom, hstep]
          have htrR : r.trace = tr3 ++ [Event.appendStatus (driverPolled e t st2)] ++
              rest := by
            rw [hso] at hout
            simpa [StepOutcome.outTrace] using hout
          exfalso
          rw [heq, htrR] at hreach
          simp only [statusesOf_append, hrs, List.length_append] at hreach
          simp only [statusesOf, List.length_cons, List.length_nil] at hreach
          omega

end ApplyCount

/-! Concrete environments used to witness or refute the claims.  Actions
and observations are instantiated with `Nat`. -/

/-- Run with a driver fault at step 0: the first desired action arrives,
the observation is appended, then `get_error` returns "overheat". -/
def envC2 : Env Nat Nat := {
  real_time_mode := true
  max_number_of_actions := 0
  max_action_repetitions := 0
  get_latest_observation := fun t => 100 + t
  get_error := fun t => if t = 0 then "overheat" else ""
  apply_action := id
  phaseAArrivals := fun k => if k = 0 then [5] else []
  phaseATimeout := fun _ => false
  phaseAReq := fun _ => false
  phaseASig := fun _ => false
  reqAtTop := fun _ => false
  sigAtTop := fun _ => false
  midAppends := fun _ => []
  waitArrivals := fun _ => []
  reqAtWait := fun _ => false
  sigAtWait := fun _ => false }

/-- Run where shutdown is already requested during the initial wait. -/
def envC7 : Env Nat Nat := {
  real_time_mode := true
  max_number_of_actions := 0
  max_action_repetitions := 0
  get_latest_observation := fun t => t
  get_error := fun _ => ""
  apply_action := id
  phaseAArrivals := fun _ => []
  phaseATimeout := fun _ => false
  phaseAReq := fun k => decide (k = 0)
  phaseASig := fun _ => false
  reqAtTop := fun _ => true
  sigAtTop := fun _ => false
  midAppends := fun _ => []
  waitArrivals := fun _ => []
  reqAtWait := fun _ => false
  sigAtWait := fun _ => false }

/-- Run stopped at step 2 by `request_shutdown()`. -/
def envC6a : Env Nat Nat := {
  real_time_mode := true
  max_number_of_actions := 0
  max_action_repetitions := 0
  get_latest_observation := fun t => t
  get_error := fun _ => ""
  apply_action := id
  phaseAArrivals := fun k => if k = 0 then [1, 2, 3] else []
  phaseATimeout := fun _ => false
  phaseAReq := fun _ => false
  phaseASig := fun _ => false
  reqAtTop := fun t => decide (t = 2)
  sigAtTop := fun _ => false
  midAppends := fun _ => []
  waitArrivals := fun _ => []
  reqAtWait := fun _ => false
  sigAtWait := fun _ => false }

/-- The same run stopped at step 2 by the interrupt signal instead. -/
def envC6b : Env Nat Nat := {
  real_time_mode := true
  max_number_of_actions := 0
  max_action_repetitions := 0
  get_latest_observation := fun t => t
  get_error := fun _ => ""
  apply_action := id
  phaseAArrivals := fun k => if k = 0 then [1, 2, 3] else []
  phaseATimeout := fun _ => false
  phaseAReq := fun _ => false
  phaseASig := fun _ => false
  reqAtTop := fun _ => false
  sigAtTop := fun t => decide (t = 2)
  midAppends := fun _ => []
  waitArrivals := fun _ => []
  reqAtWait := fun _ => false
  sigAtWait := fun _ => false }

/-- Run where no action ever arrives and the first-action timeout expires
at the very first iteration of the initial wait. -/
def envC5 : Env Nat Nat := {
  real_time_mode := true
  max_number_of_actions := 0
  max_action_repetitions := 0
  get_latest_observation := fun t => t
  get_error := fun _ => ""
  apply_action := id
  phaseAArrivals := fun _ => []
  phaseATimeout := fun _ => true
  phaseAReq := fun _ => false
  phaseASig := fun _ => false
  reqAtTop := fun _ => false
  sigAtTop := fun _ => false
  midAppends := fun _ => []
  waitArrivals := fun _ => []
  reqAtWait := fun _ => false
  sigAtWait := fun _ => false }

/-- C10: on every run, the real-time admission branch never hits the
EMPTY_SERIES failure of `newest_element()`: the loop body at t = 0 is
reached only once desired index 0 exists, and for t ≥ 1 the previous
iteration has appended status[t-1], so both `newest_element()` calls are
on non-empty series and the run never ends in `emptySeriesFailure`. -/
theorem newest_element_never_fails {A O : Type} (e : Env A O) (fuel : Nat) :
    (runBackend e fuel).exit ≠ RunExit.emptySeriesFailure :=
  (runBackend_spec e fuel).1

/-- C2 (amended): at every point of every run, the applied series never
runs ahead of the observation, status, or desired series (in particular
desired[t] exists at the moment applied[t] is written), and the status
series exceeds the observation series by at most the single
first-action-timeout status.  The original claim, that observation[t] and
applied[t] exist as soon as status[t] is appended, is refuted by
`step_completeness_cex`. -/
theorem step_completeness {A O : Type} (e : Env A O) (fuel : Nat)
    (p : List (Event A O)) (hp : TraceLe p (runBackend e fuel).trace) :
    (appliedOf p).length ≤ (observationsOf p).length ∧
    (appliedOf p).length ≤ (statusesOf p).length ∧
    (appliedOf p).length ≤ (desiredOf p).length ∧
    (statusesOf p).length ≤ (observationsOf p).length + 1 :=
  (runBackend_spec e fuel).2.1 p hp

/-- C2, counterexample: in a run with a driver fault at step 0, status[0]
is appended (and the loop exits) but applied[0] never exists, so "once the
loop has appended status[t], applied[t] also exists" is false on the code:
status[t] is appended before applied[t], and on error steps applied[t] is
never appended at all. -/
theorem step_completeness_cex :
    (statusesOf (runBackend envC2 5).trace).get? 0 =
      some { error_status := ErrorStatus.DRIVER_ERROR, error_message := "overheat",
             action_repetitions := 0 } ∧
    (appliedOf (runBackend envC2 5).trace).length = 0 ∧
    (observationsOf (runBackend envC2 5).trace).length = 1 := by
  decide

/-- C2, witness: the amended ordering property evaluated on the whole
trace of a concrete run. -/
theorem step_completeness_witness :
    (appliedOf (runBackend envC2 5).trace).length ≤
      (observationsOf (runBackend envC2 5).trace).length ∧
    (appliedOf (runBackend envC2 5).trace).length ≤
      (statusesOf (runBackend envC2 5).trace).length ∧
    (appliedOf (runBackend envC2 5).trace).length ≤
      (desiredOf (runBackend envC2 5).trace).length ∧
    (statusesOf (runBackend envC2 5).trace).length ≤
      (observationsOf (runBackend envC2 5).trace).length + 1 :=
  step_completeness envC2 5 (runBackend envC2 5).trace (TraceLe.refl _)

/-- C7: on every terminating run, `driver.shutdown()` is emitted exactly
once, after the loop exits, and `loop_is_running = false` happens only
after it: the trace ends with the two post-loop events and neither occurs
anywhere earlier. -/
theorem driver_shutdown_once {A O : Type} (e : Env A O) (fuel : Nat)
    (h : (runBackend e fuel).exit = RunExit.exited) :
    ∃ p, (runBackend e fuel).trace = p ++ [Event.driverShutdown, Event.loopRunningFalse] ∧
      (Event.driverShutdown : Event A O) ∉ p ∧ (Event.loopRunningFalse : Event A O) ∉ p :=
  (runBackend_spec e fuel).2.2.1 h

/-- C7, witness: the shutdown shape evaluated on a concrete run that is
terminated by `request_shutdown` during the initial wait. -/
theorem driver_shutdown_once_witness :
    ∃ p, (runBackend envC7 3).trace = p ++ [Event.driverShutdown, Event.loopRunningFalse] ∧
      (Event.driverShutdown : Event Nat Nat) ∉ p ∧
      (Event.loopRunningFalse : Event Nat Nat) ∉ p :=
  driver_shutdown_once envC7 3 (by decide)

/-- C6: the backend reads `request_shutdown()` and the interrupt flag only
through the disjunction `has_shutdown_request()` computes, at the top of
every loop iteration and inside both wait loops: two runs whose
environments agree on that disjunction at every check (and on everything
else) produce identical traces and exits. -/
theorem shutdown_sources_equivalent {A O : Type} (e1 e2 : Env A O) (fuel : Nat)
    (h : SignalEquiv e1 e2) : runBackend e1 fuel = runBackend e2 fuel :=
  runBackend_congr h fuel

/-- C6, witness: raising the interrupt flag at step 2 produces exactly the
run that calling `request_shutdown()` at step 2 produces. -/
theorem shutdown_sources_equivalent_witness :
    runBackend envC6a 10 = runBackend envC6b 10 :=
  shutdown_sources_equivalent envC6a envC6b 10
    ⟨rfl, rfl, rfl, rfl, rfl, rfl, rfl, rfl, rfl, rfl, fun _ => rfl,
     fun t => by simp [envC6a, envC6b], fun _ => rfl⟩

/-- C5: when no desired action arrives and no shutdown is requested before
the first-action timeout expires, the run appends exactly one
BACKEND_ERROR status ("First action was not provided in time"), initiates
shutdown, and never enters the per-step loop: the whole trace is that one
status followed by the post-loop events. -/
theorem first_action_timeout {A O : Type} (e : Env A O) (fuel K : Nat)
    (hKlt : ∀ j, j < K → e.phaseATimeout j = false)
    (hKto : e.phaseATimeout K = true)
    (harr : ∀ j, j ≤ K → e.phaseAArrivals j = [])
    (hsig : ∀ j, j ≤ K → (e.phaseAReq j || e.phaseASig j) = false)
    (hfuel : K < fuel) :
    runBackend e fuel = ⟨[Event.appendStatus (Status.init.set_error
      ErrorStatus.BACKEND_ERROR "First action was not provided in time"),
      Event.driverShutdown, Event.loopRunningFalse], RunExit.exited⟩ := by
  have hpa := phaseA_timeout_run e K fuel 0
    (by intro j hj; simpa using hKlt j hj)
    (by simpa using hKto)
    (by intro j hj; simpa using harr j hj)
    (by intro j hj; simpa using hsig j hj)
    hfuel
  have hrb : runBackend e fuel = loopFrom e fuel 0
      [Event.appendStatus (Status.init.set_error ErrorStatus.BACKEND_ERROR
        "First action was not provided in time")] true := by
    simp [runBackend, hpa]
  rw [hrb]
  rcases fuel with _ | fuel
  · omega
  · have hstep := @stepBody_eq_top A O e 0
      [Event.appendStatus (Status.init.set_error ErrorStatus.BACKEND_ERROR
        "First action was not provided in time")] true (by simp)
    simp [loopFrom, hstep]

/-- C5, witness: a concrete run whose timeout expires at the first
iteration of the initial wait. -/
theorem first_action_timeout_witness :
    runBackend envC5 3 = ⟨[Event.appendStatus (Status.init.set_error
      ErrorStatus.BACKEND_ERROR "First action was not provided in time"),
      Event.driverShutdown, Event.loopRunningFalse], RunExit.exited⟩ :=
  first_action_timeout envC5 3 0 (fun j hj => absurd hj (Nat.not_lt_zero j)) rfl
    (fun _ _ => rfl) (fun _ _ => rfl) (by omega)

/-- Non-real-time run: three actions supplied up front, shutdown requested
at step 3. -/
def envC8 : Env Nat Nat := {
  real_time_mode := false
  max_number_of_actions := 0
  max_action_repetitions := 0
  get_latest_observation := fun t => t
  get_error := fun _ => ""
  apply_action := id
  phaseAArrivals := fun k => if k = 0 then [1, 2, 3] else []
  phaseATimeout := fun _ => false
  phaseAReq := fun _ => false
  phaseASig := fun _ => false
  reqAtTop := fun t => decide (t = 3)
  sigAtTop := fun _ => false
  midAppends := fun _ => []
  waitArrivals := fun _ => []
  reqAtWait := fun _ => false
  sigAtWait := fun _ => false }

/-- C8: with `real_time_mode = false` the backend never appends to the
desired-action series, every status it appends has
`action_repetitions = 0`, and between steps it blocks on the desired
action: a step at which no error is pending, the desired series does not
reach index t, and no shutdown is observed ends in the `blocked` state
(only a shutdown request can interrupt that wait). -/
theorem non_realtime_no_repetitions {A O : Type} (e : Env A O) (fuel : Nat)
    (hrt : e.real_time_mode = false) :
    backendAppendsOf (runBackend e fuel).trace = [] ∧
    (∀ s ∈ statusesOf (runBackend e fuel).trace, s.action_repetitions = 0) ∧
    (∀ (t : Nat) (tr : List (Event A O)) (flag : Bool),
      (flag || e.reqAtTop t || e.sigAtTop t) = false →
      ¬(0 < e.max_number_of_actions ∧ e.max_number_of_actions ≤ t) →
      e.get_error t = "" →
      (e.reqAtWait t || e.sigAtWait t) = false →
      (desiredOf (trAfterObs e t tr)).length + (e.waitArrivals t).length ≤ t →
      stepBody e t tr flag = StepOutcome.halt ⟨trAfterObs e t tr ++
        [Event.appendStatus Status.init] ++
        (e.waitArrivals t).map Event.clientAppendDesired, RunExit.blocked⟩) := by
  have h12 : backendAppendsOf (runBackend e fuel).trace = [] ∧
      (∀ s ∈ statusesOf (runBackend e fuel).trace, s.action_repetitions = 0) := by
    rcases hpa : phaseA e fuel 0 [] false with _ | ⟨tr, flag⟩
    · have hrb : runBackend e fuel = ⟨[], RunExit.fuelOut⟩ := by simp [runBackend, hpa]
      rw [hrb]
      exact ⟨rfl, by intro s hs; simp [statusesOf] at hs⟩
    · have hrb : runBackend e fuel = loopFrom e fuel 0 tr flag := by simp [runBackend, hpa]
      obtain ⟨ext, hext, hb, hs, _, _, _⟩ := phaseA_extension e fuel 0 [] false tr flag hpa
      rw [hrb]
      refine C8_loop_aux e hrt fuel 0 tr flag ?_ ?_
      · rw [hext]
        simpa using hb
      · rw [hext]
        intro s hmem
        refine hs s ?_
        simpa using hmem
  refine ⟨h12.1, h12.2, ?_⟩
  intro t tr flag h1 h2 h3 h4 h5
  have hadm := @admission_eq_skip A O e t (trAfterObs e t tr) (presetStatus e t)
    (by rw [hrt]; simp)
  have hpre := presetStatus_eq_init h2
  have herr : (driverPolled e t (presetStatus e t)).error_status =
      ErrorStatus.NO_ERROR := by
    rw [hpre, driverPolled_eq_self h3]
    rfl
  have hw : (false || e.reqAtWait t || e.sigAtWait t) = false := by
    simp only [Bool.false_or]
    exact h4
  have hget : (desiredOf (trAfterObs e t tr ++
      [Event.appendStatus (driverPolled e t (presetStatus e t))] ++
      (e.waitArrivals t).map Event.clientAppendDesired)).get? t = none := by
    refine List.get?_eq_none.mpr ?_
    simp only [desiredOf_append, desiredOf_map_client, List.length_append]
    simp only [desiredOf, List.length_nil]
    omega
  rw [stepBody_eq_go h1 hadm, stepRest_eq_blocked herr hw hget, hpre,
    driverPolled_eq_self h3]

/-- C8, witness: the no-repetition part evaluated on a concrete
non-real-time run. -/
theorem non_realtime_no_repetitions_witness :
    backendAppendsOf (runBackend envC8 8).trace = [] :=
  (non_realtime_no_repetitions envC8 8 rfl).1

/-- Run limited to two actions where only one action is ever supplied and
one within-budget repetition fills the gap: fault-free, so the loop
survives to step N = 2. -/
def envC9 : Env Nat Nat := {
  real_time_mode := true
  max_number_of_actions := 2
  max_action_repetitions := 1
  get_latest_observation := fun t => t
  get_error := fun _ => ""
  apply_action := id
  phaseAArrivals := fun k => if k = 0 then [1] else []
  phaseATimeout := fun _ => false
  phaseAReq := fun _ => false
  phaseASig := fun _ => false
  reqAtTop := fun _ => false
  sigAtTop := fun _ => false
  midAppends := fun _ => []
  waitArrivals := fun _ => []
  reqAtWait := fun _ => false
  sigAtWait := fun _ => false }

/-- C9: on every run with `max_number_of_actions = N > 0` that reaches
step N — status[N] gets appended, which happens exactly when no driver
error, no repetition exhaustion and no shutdown request ends the loop
before step N, since each of those leaves at most N statuses —
`driver.apply_action` is called exactly N times (once per step 0..N-1,
however the desired actions got there: supplied up front, arriving
per step, or repeated within budget); at step N the backend still appends
observation[N] and status[N], then breaks out of the loop before calling
`apply_action` or appending to the applied series, so observation and
status reach length N + 1 while apply calls and applied stay at N. -/
theorem apply_action_count {A O : Type} (e : Env A O) (fuel : Nat)
    (hN : 0 < e.max_number_of_actions)
    (hreach : (statusesOf (runBackend e fuel).trace).length =
      e.max_number_of_actions + 1) :
    (runBackend e fuel).exit = RunExit.exited ∧
    (applyCallsOf (runBackend e fuel).trace).length = e.max_number_of_actions ∧
    (observationsOf (runBackend e fuel).trace).length = e.max_number_of_actions + 1 ∧
    (appliedOf (runBackend e fuel).trace).length = e.max_number_of_actions := by
  rcases hpa : phaseA e fuel 0 [] false with _ | ⟨tr, flag⟩
  · have hrb : runBackend e fuel = ⟨[], RunExit.fuelOut⟩ := by simp [runBackend, hpa]
    have h0 : (statusesOf (runBackend e fuel).trace).length = 0 := by
      rw [hrb]
      simp [statusesOf]
    exfalso
    omega
  · have hrb : runBackend e fuel = loopFrom e fuel 0 tr flag := by simp [runBackend, hpa]
    rw [hrb] at hreach ⊢
    have inv := phaseA_spec e fuel 0 [] (by simp [observationsOf]) (by simp [appliedOf])
      (by simp [applyCallsOf]) (by simp [statusesOf]) goodPref_nil
      (by simp) (by simp) tr flag hpa
    exact C9_loop_aux e hN fuel 0 tr flag inv (by omega) hreach

/-- C9, witness: with N = 2 and a single supplied action completed by one
within-budget repetition, the run reaches step 2 and exits with exactly
two `apply_action` calls. -/
theorem apply_action_count_witness :
    (runBackend envC9 5).exit = RunExit.exited ∧
    (applyCallsOf (runBackend envC9 5).trace).length = envC9.max_number_of_actions :=
  ⟨(apply_action_count envC9 5 (by decide) (by decide)).1,
   (apply_action_count envC9 5 (by decide) (by decide)).2.1⟩

/-- Run limited to one action while the client supplies three actions up
front. -/
def envC4 : Env Nat Nat := {
  real_time_mode := true
  max_number_of_actions := 1
  max_action_repetitions := 0
  get_latest_observation := fun t => t
  get_error := fun _ => ""
  apply_action := id
  phaseAArrivals := fun k => if k = 0 then [10, 11, 12] else []
  phaseATimeout := fun _ => false
  phaseAReq := fun _ => false
  phaseASig := fun _ => false
  reqAtTop := fun _ => false
  sigAtTop := fun _ => false
  midAppends := fun _ => []
  waitArrivals := fun _ => []
  reqAtWait := fun _ => false
  sigAtWait := fun _ => false }

/-- C4 (amended): on every run with `max_number_of_actions = N > 0`, the
backend-written series never exceed N + 1 elements (observation and status
at most N + 1, applied at most N); if a status at index N is appended it
has error kind BACKEND_ERROR — with message
"Maximum number of actions reached." (trailing period) or, when the
real-time admission policy overwrote it, "Next action was not provided in
time" — unless a driver fault at step N turned it into DRIVER_ERROR.  The
desired series can exceed N + 1 through client appends, as
`action_limit_cex` shows. -/
theorem action_limit {A O : Type} (e : Env A O) (fuel : Nat)
    (hN : 0 < e.max_number_of_actions) :
    (observationsOf (runBackend e fuel).trace).length ≤ e.max_number_of_actions + 1 ∧
    (statusesOf (runBackend e fuel).trace).length ≤ e.max_number_of_actions + 1 ∧
    (appliedOf (runBackend e fuel).trace).length ≤ e.max_number_of_actions ∧
    ∀ s, (statusesOf (runBackend e fuel).trace).get? e.max_number_of_actions = some s →
      s.error_status = ErrorStatus.DRIVER_ERROR ∨
      (s.error_status = ErrorStatus.BACKEND_ERROR ∧
        (s.error_message = "Maximum number of actions reached." ∨
         s.error_message = "Next action was not provided in time")) := by
  rcases hpa : phaseA e fuel 0 [] false with _ | ⟨tr, flag⟩
  · have hrb : runBackend e fuel = ⟨[], RunExit.fuelOut⟩ := by simp [runBackend, hpa]
    rw [hrb]
    refine ⟨by simp [observationsOf], by simp [statusesOf], by simp [appliedOf], ?_⟩
    intro s hs
    simp [statusesOf] at hs
  · have hrb : runBackend e fuel = loopFrom e fuel 0 tr flag := by simp [runBackend, hpa]
    rw [hrb]
    have inv := phaseA_spec e fuel 0 [] (by simp [observationsOf]) (by simp [appliedOf])
      (by simp [applyCallsOf]) (by simp [statusesOf]) goodPref_nil
      (by simp) (by simp) tr flag hpa
    exact C4_loop_aux e hN fuel 0 tr flag inv (by omega)

/-- C4, counterexample: with N = 1 and three client actions supplied up
front, the status appended at index 1 carries the message
"Maximum number of actions reached." — with a trailing period, unlike the
message the claim states — and the desired series has 3 > N + 1 elements,
because the client may keep appending. -/
theorem action_limit_cex :
    (statusesOf (runBackend envC4 10).trace).get? 1 =
      some { error_status := ErrorStatus.BACKEND_ERROR,
             error_message := "Maximum number of actions reached.",
             action_repetitions := 0 } ∧
    "Maximum number of actions reached." ≠ "Maximum number of actions reached" ∧
    (desiredOf (runBackend envC4 10).trace).length = 3 ∧
    envC4.max_number_of_actions = 1 := by
  decide

/-- C4, witness: the amended bounds evaluated on the same limited run. -/
theorem action_limit_witness :
    (observationsOf (runBackend envC4 10).trace).length ≤
      envC4.max_number_of_actions + 1 ∧
    (statusesOf (runBackend envC4 10).trace).length ≤ envC4.max_number_of_actions + 1 ∧
    (appliedOf (runBackend envC4 10).trace).length ≤ envC4.max_number_of_actions :=
  ⟨(action_limit envC4 10 (by decide)).1, (action_limit envC4 10 (by decide)).2.1,
   (action_limit envC4 10 (by decide)).2.2.1⟩

/-- Run limited to one action with a driver fault at step 1: at step 1
both the action-limit BACKEND_ERROR and a driver error occur. -/
def envC3w : Env Nat Nat := {
  real_time_mode := true
  max_number_of_actions := 1
  max_action_repetitions := 0
  get_latest_observation := fun t => t
  get_error := fun t => if t = 1 then "overheat" else ""
  apply_action := id
  phaseAArrivals := fun k => if k = 0 then [10, 11] else []
  phaseATimeout := fun _ => false
  phaseAReq := fun _ => false
  phaseASig := fun _ => false
  reqAtTop := fun _ => false
  sigAtTop := fun _ => false
  midAppends := fun _ => []
  waitArrivals := fun _ => []
  reqAtWait := fun _ => false
  sigAtWait := fun _ => false }

/-- Trace of a completed step 0 (two client actions, observation, NONE
status, applied action), used to run step 1 in isolation. -/
def trC3w : List (Event Nat Nat) :=
  [Event.clientAppendDesired 10, Event.clientAppendDesired 11,
   Event.appendObservation 0, Event.appendStatus Status.init,
   Event.applyActionCall 10, Event.appendApplied 10]

/-- C3: whenever `driver.get_error()` returns a non-empty string at step t,
the status appended at step t is DRIVER_ERROR with that message — whatever
the admission policy or the action-limit pre-check had set before, the
driver error overrides it — and the loop exits and the driver is shut
down. -/
theorem driver_error_overrides {A O : Type} (e : Env A O) (t : Nat)
    (tr tr3 : List (Event A O)) (flag : Bool) (st2 : Status)
    (htop : (flag || e.reqAtTop t || e.sigAtTop t) = false)
    (hmsg : e.get_error t ≠ "")
    (hadm : admission e t (trAfterObs e t tr) (presetStatus e t) = some (tr3, st2)) :
    stepBody e t tr flag = StepOutcome.halt ⟨tr3 ++
        [Event.appendStatus (st2.set_error ErrorStatus.DRIVER_ERROR (e.get_error t)),
         Event.driverShutdown, Event.loopRunningFalse], RunExit.exited⟩ ∧
    (st2.set_error ErrorStatus.DRIVER_ERROR (e.get_error t)).error_status =
      ErrorStatus.DRIVER_ERROR ∧
    (st2.set_error ErrorStatus.DRIVER_ERROR (e.get_error t)).error_message =
      e.get_error t := by
  have herr' : (driverPolled e t st2).error_status ≠ ErrorStatus.NO_ERROR := by
    rw [driverPolled_eq_err hmsg]
    simp [Status.set_error]
  rw [stepBody_eq_go htop hadm, stepRest_eq_error herr', driverPolled_eq_err hmsg]
  exact ⟨rfl, rfl, rfl⟩

/-- C3, witness: at step 1 of a limited run the pre-set BACKEND_ERROR
("Maximum number of actions reached.") is overridden by
DRIVER_ERROR("overheat") and the loop exits. -/
theorem driver_error_overrides_witness :
    stepBody envC3w 1 trC3w false = StepOutcome.halt ⟨trAfterObs envC3w 1 trC3w ++
      [Event.appendStatus ((presetStatus envC3w 1).set_error ErrorStatus.DRIVER_ERROR
        (envC3w.get_error 1)), Event.driverShutdown, Event.loopRunningFalse],
      RunExit.exited⟩ :=
  (driver_error_overrides envC3w 1 trC3w (trAfterObs envC3w 1 trC3w) false
    (presetStatus envC3w 1) (by decide) (by decide) (by decide)).1

/-- Real-time run with a single action, no repetitions allowed, and a
driver fault at step 1: the late-action error and the driver error occur
in the same step. -/
def envC1cex : Env Nat Nat := {
  real_time_mode := true
  max_number_of_actions := 0
  max_action_repetitions := 0
  get_latest_observation := fun t => 100 + t
  get_error := fun t => if t = 1 then "overheat" else ""
  apply_action := id
  phaseAArrivals := fun k => if k = 0 then [5] else []
  phaseATimeout := fun _ => false
  phaseAReq := fun _ => false
  phaseASig := fun _ => false
  reqAtTop := fun _ => false
  sigAtTop := fun _ => false
  midAppends := fun _ => []
  waitArrivals := fun _ => []
  reqAtWait := fun _ => false
  sigAtWait := fun _ => false }

/-- Real-time run allowing one repetition, no driver faults. -/
def envC1w : Env Nat Nat := {
  real_time_mode := true
  max_number_of_actions := 0
  max_action_repetitions := 1
  get_latest_observation := fun t => 100 + t
  get_error := fun _ => ""
  apply_action := id
  phaseAArrivals := fun k => if k = 0 then [5] else []
  phaseATimeout := fun _ => false
  phaseAReq := fun _ => false
  phaseASig := fun _ => false
  reqAtTop := fun _ => false
  sigAtTop := fun _ => false
  midAppends := fun _ => []
  waitArrivals := fun _ => []
  reqAtWait := fun _ => false
  sigAtWait := fun _ => false }

/-- Trace of a completed step 0 with one client action, used to run step 1
in isolation. -/
def trC1w : List (Event Nat Nat) :=
  [Event.clientAppendDesired 5, Event.appendObservation 100,
   Event.appendStatus Status.init, Event.applyActionCall 5, Event.appendApplied 5]

/-- C1 (amended): at a step t with real-time mode on and
`desired.newest_index() < t`, let r be the repetition counter of the
newest status: if `r < max_action_repetitions` the backend re-appends the
newest desired action and the status appended for step t has
`action_repetitions = r + 1`; otherwise — provided `driver.get_error()`
returns the empty string at step t — the status appended for step t is
BACKEND_ERROR("Next action was not provided in time") and the loop exits.
(When the driver reports an error in the same step it overrides the
BACKEND_ERROR, as `realtime_admission_policy_cex` shows.) -/
theorem realtime_admission_policy {A O : Type} (e : Env A O) (t : Nat)
    (tr : List (Event A O)) (flag : Bool) (sN : Status) (aN : A)
    (htop : (flag || e.reqAtTop t || e.sigAtTop t) = false)
    (hg : e.real_time_mode = true ∧
      ((desiredOf (trAfterObs e t tr)).length : Int) - 1 < (t : Int))
    (hs : (statusesOf (trAfterObs e t tr)).getLast? = some sN)
    (hd : (desiredOf (trAfterObs e t tr)).getLast? = some aN) :
    (sN.action_repetitions < e.max_action_repetitions →
      backendAppendsOf (stepBody e t tr flag).outTrace =
        backendAppendsOf (trAfterObs e t tr) ++ [aN] ∧
      ∃ s, statusesOf (stepBody e t tr flag).outTrace =
        statusesOf (trAfterObs e t tr) ++ [s] ∧
        s.action_repetitions = sN.action_repetitions + 1) ∧
    (e.max_action_repetitions ≤ sN.action_repetitions → e.get_error t = "" →
      ∃ s, stepBody e t tr flag = StepOutcome.halt ⟨trAfterObs e t tr ++
          [Event.appendStatus s, Event.driverShutdown, Event.loopRunningFalse],
          RunExit.exited⟩ ∧
        s.error_status = ErrorStatus.BACKEND_ERROR ∧
        s.error_message = "Next action was not provided in time") := by
  constructor
  · intro hlt
    have hadm := @admission_eq_repeat A O e t (trAfterObs e t tr) (presetStatus e t)
      sN aN hg hs hlt hd
    rw [stepBody_eq_go htop hadm]
    obtain ⟨rest, hout, hrs, hrb, _, _⟩ := stepRest_outTrace_facts e t
      (trAfterObs e t tr ++ [Event.backendAppendDesired aN]) false
      { presetStatus e t with action_repetitions := sN.action_repetitions + 1 }
    rw [hout]
    constructor
    · simp [backendAppendsOf, hrb]
    · refine ⟨driverPolled e t { presetStatus e t with
        action_repetitions := sN.action_repetitions + 1 }, ?_, ?_⟩
      · simp [statusesOf, hrs]
      · rw [driverPolled_reps]
  · intro hge herr0
    have hadm := @admission_eq_exhausted A O e t (trAfterObs e t tr) (presetStatus e t)
      sN hg hs (by omega)
    have herrX : (driverPolled e t ((presetStatus e t).set_error
        ErrorStatus.BACKEND_ERROR "Next action was not provided in time")).error_status ≠
        ErrorStatus.NO_ERROR := by
      rw [driverPolled_eq_self herr0]
      simp [Status.set_error]
    rw [stepBody_eq_go htop hadm, stepRest_eq_error herrX]
    refine ⟨(presetStatus e t).set_error ErrorStatus.BACKEND_ERROR
      "Next action was not provided in time", ?_, rfl, rfl⟩
    rw [driverPolled_eq_self herr0]

/-- C1, counterexample: at step 1 of `envC1cex` the admission branch is
entered with the repetition budget exhausted, but because the driver
reports "overheat" in the same step, the status appended at index 1 is
DRIVER_ERROR("overheat"), not BACKEND_ERROR("Next action was not provided
in time") as the claim states. -/
theorem realtime_admission_policy_cex :
    envC1cex.real_time_mode = true ∧
    envC1cex.max_action_repetitions = 0 ∧
    (desiredOf (runBackend envC1cex 10).trace).length = 1 ∧
    (statusesOf (runBackend envC1cex 10).trace).get? 1 =
      some { error_status := ErrorStatus.DRIVER_ERROR, error_message := "overheat",
             action_repetitions := 0 } ∧
    (runBackend envC1cex 10).exit = RunExit.exited := by
  decide

/-- C1, witness: at step 1 of `envC1w` the last action is repeated and the
appended status carries `action_repetitions = 1`. -/
theorem realtime_admission_policy_witness :
    backendAppendsOf (stepBody envC1w 1 trC1w false).outTrace =
      backendAppendsOf (trAfterObs envC1w 1 trC1w) ++ [5] ∧
    ∃ s, statusesOf (stepBody envC1w 1 trC1w false).outTrace =
      statusesOf (trAfterObs envC1w 1 trC1w) ++ [s] ∧
      s.action_repetitions = Status.init.action_repetitions + 1 :=
  (realtime_admission_policy envC1w 1 trC1w false Status.init 5 (by decide) (by decide)
    (by decide) (by decide)).1 (by decide)

end RobotInterfaces
